import Mathlib

set_option linter.unusedVariables false

/-!
Shallow embedding of `scoutnet2airkey.py`, the Scoutnet → EVVA Airkey
reconciliation engine.

Modelling conventions:
* Python dicts become association lists (`List (κ × β)`) with insert-or-replace
  assignment (`dictSet`), preserving insertion order like CPython dicts.
* The two remote services are snapshots: `ScoutnetWorld` for the membership
  service and `AirkeyWorld` for the access-control service.  Read calls return
  data from the snapshot; every network call the engine issues is recorded in
  the `calls` trace of `SyncState`, so that "issues a mutation" is the
  observable fact `c ∈ st.calls` with `c.isMutation`.
* Python exceptions become `Except String`; the string names the Python
  exception class that would be raised.
* Python truthiness on strings (`if p.secondary_identification:`) is the test
  `≠ ""`; truthiness on optional integer ids is `optTruthy`.
-/

/-- Python `int(s)` restricted to the nonnegative decimal strings this program
stores in `secondary_identification` (`str(i)` of a member id).  `none` models
`ValueError`. -/
def parseInt (s : String) : Option Nat :=
  if s.length ≠ 0 ∧ s.data.all Char.isDigit then
    some (s.data.foldl (fun n c => n * 10 + (c.toNat - 48)) 0)
  else none

/-- Python truthiness of an optional integer (`None` and `0` are falsy). -/
def optTruthy : Option Nat → Bool
  | none => false
  | some n => n ≠ 0

/-- `d[k]` lookup returning `none` when the key is absent (Python `.get`). -/
def dictGet {α β : Type} [BEq α] (d : List (α × β)) (k : α) : Option β :=
  (d.find? (fun kv => kv.1 == k)).map (·.2)

/-- `k in d` membership test. -/
def dictHas {α β : Type} [BEq α] (d : List (α × β)) (k : α) : Bool :=
  d.any (fun kv => kv.1 == k)

/-- `d[k] = v` dict assignment: replace in place if present, else append. -/
def dictSet {α β : Type} [BEq α] (d : List (α × β)) (k : α) (v : β) : List (α × β) :=
  if dictHas d k then d.map (fun kv => if kv.1 == k then (k, v) else kv)
  else d ++ [(k, v)]

/-- Lookup with a default, for subscripts the source only performs on keys
known to be present. -/
def dictGetD {α β : Type} [BEq α] (d : List (α × β)) (k : α) (v₀ : β) : β :=
  (dictGet d k).getD v₀

/-- `d.keys()`. -/
def dictKeys {α β : Type} (d : List (α × β)) : List α :=
  d.map (·.1)

/-- `collections.defaultdict(list)` append: `d[k].append(v)`. -/
def dictAppend {α β : Type} [BEq α] (d : List (α × List β)) (k : α) (v : β) :
    List (α × List β) :=
  if dictHas d k then d.map (fun kv => if kv.1 == k then (kv.1, kv.2 ++ [v]) else kv)
  else d ++ [(k, [v])]

/-- Per-key view of the defaultdict: absent keys read as `[]`. -/
def dGetL {α β : Type} [BEq α] (d : List (α × List β)) (k : α) : List β :=
  (dictGet d k).getD []

/-- Python set difference over key lists. -/
def setDiff (a b : List Nat) : List Nat :=
  a.filter (fun x => !b.contains x)

/-- Python set intersection over key lists. -/
def setInter (a b : List Nat) : List Nat :=
  a.filter (fun x => b.contains x)

/-- `DEFAULT_LIMIT = 100`, the fixed page size. -/
def DEFAULT_LIMIT : Nat := 100

/-- `DEFAULT_LANGUAGE = "sv-SE"`. -/
def DEFAULT_LANGUAGE : String := "sv-SE"

/-- The body of the source's pagination loop: request pages of `DEFAULT_LIMIT`
at growing offsets, stopping at the first empty page, accumulating into `acc`.
The `fuel` argument only forces structural termination; `paginate` supplies
enough of it that the fuel-exhausted branch is unreachable (`paginateGo_eq`). -/
def paginateGo {α : Type} (world : List α) : Nat → Nat → List α → List α
  | 0, _, acc => acc
  | fuel + 1, offset, acc =>
    let page := (world.drop offset).take DEFAULT_LIMIT
    if page.isEmpty then acc
    else paginateGo world fuel (offset + DEFAULT_LIMIT) (acc ++ page)

/-- The source's pagination loop. -/
def paginate {α : Type} (world : List α) (offset : Nat) (acc : List α) : List α :=
  paginateGo world (world.length + 1) offset acc

theorem paginateGo_eq {α : Type} (world : List α) :
    ∀ (fuel offset : Nat) (acc : List α), world.length - offset ≤ fuel →
      paginateGo world fuel offset acc = acc ++ world.drop offset := by
  intro fuel
  induction fuel with
  | zero =>
    intro offset acc hle
    have hnil : world.drop offset = [] := List.drop_eq_nil_of_le (by omega)
    simp [paginateGo, hnil]
  | succ fuel ih =>
    intro offset acc hle
    rw [paginateGo]
    by_cases hp : ((world.drop offset).take DEFAULT_LIMIT).isEmpty
    · have hnil : world.drop offset = [] := by
        have := List.isEmpty_iff.mp hp
        rcases List.take_eq_nil_iff.mp this with h100 | hnil
        · exact absurd h100 (by simp [DEFAULT_LIMIT])
        · exact hnil
      simp [hp, hnil]
    · have hoff : offset < world.length := by
        by_contra hc
        push_neg at hc
        have hnil : world.drop offset = [] := List.drop_eq_nil_of_le hc
        simp [hnil] at hp
      simp only [hp, if_false]
      rw [ih (offset + DEFAULT_LIMIT) _ (by simp only [DEFAULT_LIMIT]; omega)]
      have hdd : world.drop (offset + DEFAULT_LIMIT) =
          (world.drop offset).drop DEFAULT_LIMIT := by
        rw [List.drop_drop, Nat.add_comm]
      rw [hdd, List.append_assoc, List.take_append_drop]
      simp

/-- The pagination loop returns everything from `offset` on. -/
theorem paginate_eq {α : Type} (world : List α) (offset : Nat) (acc : List α) :
    paginate world offset acc = acc ++ world.drop offset :=
  paginateGo_eq world (world.length + 1) offset acc (by omega)

/-- The fetch loops start at offset 0 with an empty accumulator. -/
theorem paginate_zero {α : Type} (world : List α) : paginate world 0 [] = world := by
  rw [paginate_eq]
  simp

/-- `ScoutnetMember`: the authoritative local person.  An absent contact phone
number is modelled by `""` (Python falsy). -/
structure ScoutnetMember where
  first_name : String
  last_name : String
  contact_mobile_phone : String
  display_name : String
  email : String
deriving DecidableEq

/-- Airkey person record.  An absent `secondary_identification` is modelled by
`""` (Python falsy). -/
structure AirkeyPerson where
  id : Nat
  first_name : String
  last_name : String
  secondary_identification : String
deriving DecidableEq

/-- Airkey phone medium. -/
structure Medium where
  id : Nat
  person_id : Option Nat
  phone_number : String
  medium_identifier : Option String
  pairing_code_valid_until : Option Nat
deriving DecidableEq

/-- Airkey area authorization. -/
structure Authorization where
  id : Nat
  person_id : Nat
  area_name : String
  current_state : String
  deletion_requested : Bool
deriving DecidableEq

/-- Payload of `airkey.models.PersonCreate`. -/
structure PersonCreate where
  first_name : String
  last_name : String
  secondary_identification : String
  correspondence_language_code : String
deriving DecidableEq

/-- Payload of `airkey.models.AuthorizationDelete`. -/
structure AuthDelete where
  id : Nat
  deletion_requested : Bool
deriving DecidableEq

/-- Payload of `airkey.models.MediumAssignment`. -/
structure MediumAssignment where
  medium_id : Nat
  person_id : Nat
deriving DecidableEq

/-- One network call issued by the engine.  The three `get*` constructors are
the read calls; everything else is a remote mutation.
`createAuthorization m a` abbreviates the
`create_or_update_authorizations_with_advanced_options` request whose only
varying parts are the medium id and the area id (the rest of the
`AuthorizationChange` payload is the constant PERMANENT-type create list). -/
inductive ApiCall where
  | getPersons
  | getPhones
  | getAuthorizations (person_id : Option Nat)
  | updatePersons (req : List AirkeyPerson)
  | createPersons (req : List PersonCreate)
  | deleteAuthorization (req : List AuthDelete)
  | deletePersons (ids : List Nat)
  | updatePhones (req : List Medium)
  | createPhones (req : List String)
  | assignOwnerToMedium (req : List MediumAssignment)
  | deletePhones (ids : List Nat)
  | createAuthorization (medium_id area_id : Nat)
  | generatePairingCode (medium_id : Nat)
  | sendRegistrationCodeToPhone (medium_id : Nat)
deriving DecidableEq

/-- Whether a call mutates remote state (everything except the reads). -/
def ApiCall.isMutation : ApiCall → Bool
  | .getPersons => false
  | .getPhones => false
  | .getAuthorizations _ => false
  | _ => true

/-- Snapshot of the Airkey service.  `next_medium_id` models the id sequence
the external service uses when answering `create_phones`. -/
structure AirkeyWorld where
  persons : List AirkeyPerson
  phones : List Medium
  auths : List Authorization
  next_medium_id : Nat
deriving DecidableEq

/-- The mutable state of a `ScoutnetAirkey` instance: the constructor-set
fields plus the caches, plus the trace of issued network calls. -/
structure SyncState where
  dry_run : Bool
  scoutnet_users : List (Nat × ScoutnetMember)
  person_id_to_scoutnet_id : List (Nat × Nat)
  persons_by_person_id : List (Nat × AirkeyPerson)
  persons_by_scoutnet_id : List (Nat × AirkeyPerson)
  phones_by_medium_id : List (Nat × Medium)
  phones_by_scoutnet_id : List (Nat × Medium)
  phone_to_person_id : List (String × Nat)
  auth_by_auth_id : List (Nat × Authorization)
  auth_by_scoutnet_id : List (Nat × List Authorization)
  calls : List ApiCall
deriving DecidableEq

/-- `ScoutnetAirkey.__init__`: empty caches, empty call trace. -/
def initState (scoutnet_users : List (Nat × ScoutnetMember)) (dry_run : Bool) :
    SyncState :=
  { dry_run := dry_run
    scoutnet_users := scoutnet_users
    person_id_to_scoutnet_id := []
    persons_by_person_id := []
    persons_by_scoutnet_id := []
    phones_by_medium_id := []
    phones_by_scoutnet_id := []
    phone_to_person_id := []
    auth_by_auth_id := []
    auth_by_scoutnet_id := []
    calls := [] }

/-- Body of the `for p in persons` loop of `_fetch_persons`:
```
self.persons_by_person_id[p.id] = p
if p.secondary_identification:
    scoutnet_id = int(p.secondary_identification)       -- may raise ValueError
    self.persons_by_scoutnet_id[scoutnet_id] = p
    self.person_id_to_scoutnet_id[p.id] = scoutnet_id
    if scoutnet_id in self.scoutnet_users:
        phone_number = self.scoutnet_users[scoutnet_id].contact_mobile_phone
        self.phone_to_person_id[phone_number] = p.id
``` -/
def fetch_persons_step (st : SyncState) (p : AirkeyPerson) : Except String SyncState :=
  let st1 := { st with persons_by_person_id := dictSet st.persons_by_person_id p.id p }
  if p.secondary_identification = "" then .ok st1
  else
    match parseInt p.secondary_identification with
    | none => .error "ValueError"
    | some scoutnet_id =>
      let st2 := { st1 with
        persons_by_scoutnet_id := dictSet st1.persons_by_scoutnet_id scoutnet_id p
        person_id_to_scoutnet_id := dictSet st1.person_id_to_scoutnet_id p.id scoutnet_id }
      match dictGet st2.scoutnet_users scoutnet_id with
      | some scout =>
        .ok { st2 with
          phone_to_person_id := dictSet st2.phone_to_person_id scout.contact_mobile_phone p.id }
      | none => .ok st2

/-- `_fetch_persons`: paginated fetch of all Airkey persons, then index them. -/
def fetch_persons (world : AirkeyWorld) (st : SyncState) : Except String SyncState :=
  let st := { st with calls := st.calls ++ [ApiCall.getPersons] }
  (paginate world.persons 0 []).foldlM fetch_persons_step st

/-- Body of the `for m in medium` loop of `_fetch_medium`.  The subscript
`self.persons_by_person_id[m.person_id]` raises `KeyError` when the owning
person was not fetched. -/
def fetch_medium_step (st : SyncState) (m : Medium) : Except String SyncState :=
  let st1 := { st with phones_by_medium_id := dictSet st.phones_by_medium_id m.id m }
  if optTruthy m.person_id then
    match dictGet st1.persons_by_person_id (m.person_id.getD 0) with
    | none => .error "KeyError"
    | some p =>
      if p.secondary_identification = "" then .ok st1
      else
        match parseInt p.secondary_identification with
        | none => .error "ValueError"
        | some scoutnet_id =>
          .ok { st1 with phones_by_scoutnet_id := dictSet st1.phones_by_scoutnet_id scoutnet_id m }
  else .ok st1

/-- The paginated phone fetch and indexing loop of `_fetch_medium`. -/
def fetch_medium_loop (world : AirkeyWorld) (st : SyncState) : Except String SyncState :=
  let st := { st with calls := st.calls ++ [ApiCall.getPhones] }
  (paginate world.phones 0 []).foldlM fetch_medium_step st

/-- `_fetch_medium`: `_fetch_persons` first, then the paginated phone fetch. -/
def fetch_medium (world : AirkeyWorld) (st : SyncState) : Except String SyncState := do
  let st ← fetch_persons world st
  fetch_medium_loop world st

/-- Body of the `for a in authorizations` loop of `_fetch_auth`:
records with `current_state == "DELETED"` are skipped; the `try` block catches
only `KeyError` (unresolvable person ⇒ warn and skip), while the `int(...)`
inside it can still raise `ValueError`. -/
def fetch_auth_step (st : SyncState) (a : Authorization) : Except String SyncState :=
  if a.current_state = "DELETED" then .ok st
  else
    let st1 := { st with auth_by_auth_id := dictSet st.auth_by_auth_id a.id a }
    match dictGet st1.persons_by_person_id a.person_id with
    | none => .ok st1
    | some person =>
      if person.secondary_identification = "" then .ok st1
      else
        match parseInt person.secondary_identification with
        | none => .error "ValueError"
        | some scoutnet_id =>
          .ok { st1 with auth_by_scoutnet_id := dictAppend st1.auth_by_scoutnet_id scoutnet_id a }

/-- The paginated authorization fetch and indexing loop of `_fetch_auth`. -/
def fetch_auth_loop (world : AirkeyWorld) (st : SyncState) : Except String SyncState :=
  let st := { st with calls := st.calls ++ [ApiCall.getAuthorizations none] }
  (paginate world.auths 0 []).foldlM fetch_auth_step st

/-- `_fetch_auth`: `_fetch_persons` first, then the paginated authorization
fetch. -/
def fetch_auth (world : AirkeyWorld) (st : SyncState) : Except String SyncState := do
  let st ← fetch_persons world st
  fetch_auth_loop world st

example : parseInt "123" = some 123 := by decide
example : parseInt "12a" = none := by decide
example : parseInt "" = none := by decide

/-- Default used for subscripts the source performs only on keys it has just
proven present. -/
def defaultMember : ScoutnetMember :=
  { first_name := "", last_name := "", contact_mobile_phone := ""
    display_name := "", email := "" }

/-- Default Airkey person, see `defaultMember`. -/
def defaultPerson : AirkeyPerson :=
  { id := 0, first_name := "", last_name := "", secondary_identification := "" }

/-- Default phone medium, see `defaultMember`. -/
def defaultMedium : Medium :=
  { id := 0, person_id := none, phone_number := ""
    medium_identifier := none, pairing_code_valid_until := none }

/-- The owner-resolution chain of `send_registration_code`:
`scoutnet_id = self.person_id_to_scoutnet_id.get(phone.person_id)`,
`scout = self.scoutnet_users.get(scoutnet_id)` (both `.get`, so `None`
propagates without raising). -/
def resolveScout (st : SyncState) (phone : Medium) : Option ScoutnetMember :=
  let scoutnet_id : Option Nat :=
    match phone.person_id with
    | none => none
    | some pid => dictGet st.person_id_to_scoutnet_id pid
  match scoutnet_id with
  | none => none
  | some sid => dictGet st.scoutnet_users sid

/-- `send_registration_code(api, medium_id)`.  The subscript
`self.phones_by_medium_id[medium_id]` can raise `KeyError`; in both the
pending-code branch and the new-code branch the log line evaluates
`scout.display_name`, which raises `AttributeError` when the owner did not
resolve (`scout is None`).  Returns whether a code was actually sent. -/
def send_registration_code (st : SyncState) (medium_id : Nat) :
    Except String (SyncState × Bool) :=
  match dictGet st.phones_by_medium_id medium_id with
  | none => .error "KeyError"
  | some phone =>
    match phone.medium_identifier with
    | some _ => .ok (st, false)
    | none =>
      match phone.pairing_code_valid_until with
      | some _ =>
        match resolveScout st phone with
        | none => .error "AttributeError"
        | some _ => .ok (st, false)
      | none =>
        match resolveScout st phone with
        | none => .error "AttributeError"
        | some _ =>
          if st.dry_run then .ok (st, false)
          else
            .ok ({ st with calls := st.calls ++
              [ApiCall.generatePairingCode phone.id,
               ApiCall.sendRegistrationCodeToPhone phone.id] }, true)

/-- `limit is None or limit > 0`. -/
def limitOpen : Option Int → Bool
  | none => true
  | some n => n > 0

/-- The `for medium_id in self.phones_by_medium_id.keys()` loop of
`send_pending_registration_codes`.  `sent : Option Bool` models the Python
local variable `sent`, unassigned (`none`) until the first iteration that
executes the guarded call; reading it while unassigned raises
`UnboundLocalError`. -/
def send_pending_loop (st : SyncState) (count : Nat) (limit : Option Int)
    (sent : Option Bool) : List Nat → Except String (SyncState × Nat)
  | [] => .ok (st, count)
  | medium_id :: rest =>
    if limitOpen limit then
      match send_registration_code st medium_id with
      | .error e => .error e
      | .ok (st', s) =>
        let count' := count + (if s then 1 else 0)
        if s ∧ limit ≠ none ∧ limitOpen limit then
          send_pending_loop st' count' (limit.map (· - 1)) (some s) rest
        else
          send_pending_loop st' count' limit (some s) rest
    else
      match sent with
      | none => .error "UnboundLocalError"
      | some s =>
        if s ∧ limit ≠ none ∧ limitOpen limit then
          send_pending_loop st count (limit.map (· - 1)) sent rest
        else
          send_pending_loop st count limit sent rest

/-- `send_pending_registration_codes(limit)`; the returned `Nat` is the count
reported by the final `"%d codes sent"` log line. -/
def send_pending_registration_codes (world : AirkeyWorld) (limit : Option Int)
    (st : SyncState) : Except String (SyncState × Nat) := do
  let st ← fetch_medium world st
  send_pending_loop st 0 limit none (dictKeys st.phones_by_medium_id)

/-- The predicate of the counting loop of `list_pending_registration_codes`:
unregistered (`medium_identifier is None`) with a pairing code issued
(`pairing_code_valid_until is not None`), expiry never consulted. -/
def listPendingCount (st : SyncState) : Nat :=
  st.phones_by_medium_id.countP
    (fun kv => kv.2.medium_identifier.isNone && kv.2.pairing_code_valid_until.isSome)

/-- `list_pending_registration_codes()`; the returned `Nat` is the count
printed in the summary line.  (The per-phone print resolves the owner with
`.get` and falls back to "anonymous", so it cannot raise; the printed text
itself is not modelled.) -/
def list_pending_registration_codes (world : AirkeyWorld) (st : SyncState) :
    Except String (SyncState × Nat) := do
  let st ← fetch_medium world st
  .ok (st, listPendingCount st)

/-- Per removed scoutnet id, the `AuthorizationDelete` entries the
deauthorization branch of `sync_persons` collects: all authorizations the
service returns for that person — including ones already deletion-requested —
whenever at least one of them is not yet deletion-requested, else none. -/
def deauthContrib (world : AirkeyWorld) (persons_by_scoutnet_id : List (Nat × AirkeyPerson))
    (i : Nat) : List AuthDelete :=
  let person_id := (dictGetD persons_by_scoutnet_id i defaultPerson).id
  let auths := world.auths.filter (fun a => a.person_id == person_id)
  let areas : List String := (auths.filter (fun a => !a.deletion_requested)).map (fun a => a.area_name)
  if areas ≠ [] then auths.map (fun a => { id := a.id, deletion_requested := true })
  else []

/-- Body of the `for i in deleted_ids` loop of the deauthorization branch of
`sync_persons`: fetch the removed person's authorizations, and when at least
one of them is not yet deletion-requested, collect `AuthorizationDelete`
entries for ALL of them (the source builds `deauthorizations` from
`res.authorizations`, not from the non-requested subset). -/
def deauth_step (world : AirkeyWorld) (acc : SyncState × List AuthDelete)
    (i : Nat) : SyncState × List AuthDelete :=
  let person_id := (dictGetD acc.1.persons_by_scoutnet_id i defaultPerson).id
  let auths := world.auths.filter (fun a => a.person_id == person_id)
  let s := { acc.1 with calls := acc.1.calls ++ [ApiCall.getAuthorizations (some person_id)] }
  let areas : List String := (auths.filter (fun a => !a.deletion_requested)).map (fun a => a.area_name)
  if areas ≠ [] then
    (s, acc.2 ++ auths.map (fun a => { id := a.id, deletion_requested := true }))
  else (s, acc.2)

/-- `sync_persons(create_persons, update_persons, delete_persons,
deauthorize_persons)`. -/
def sync_persons (world : AirkeyWorld)
    (create_persons update_persons delete_persons deauthorize_persons : Bool)
    (st : SyncState) : Except String SyncState := do
  let st ← fetch_persons world st
  let airkey_ids := dictKeys st.persons_by_scoutnet_id
  let scoutnet_ids := dictKeys st.scoutnet_users
  -- Update existing users
  let st :=
    if update_persons then
      let existing_ids := setInter scoutnet_ids airkey_ids
      let step := fun (acc : SyncState × List AirkeyPerson) (i : Nat) =>
        let scout := dictGetD acc.1.scoutnet_users i defaultMember
        let ap := dictGetD acc.1.persons_by_scoutnet_id i defaultPerson
        if scout.first_name ≠ ap.first_name ∨ scout.last_name ≠ ap.last_name then
          let ap' := { ap with first_name := scout.first_name, last_name := scout.last_name }
          ({ acc.1 with persons_by_scoutnet_id := dictSet acc.1.persons_by_scoutnet_id i ap' },
           acc.2 ++ [ap'])
        else acc
      let res := existing_ids.foldl step (st, [])
      if res.2 ≠ [] ∧ res.1.dry_run = false then
        { res.1 with calls := res.1.calls ++ [ApiCall.updatePersons res.2] }
      else res.1
    else st
  -- Create new users
  let st :=
    if create_persons then
      let created_ids := setDiff scoutnet_ids airkey_ids
      let req_create := created_ids.foldl (fun req i =>
        let scout := dictGetD st.scoutnet_users i defaultMember
        req ++ [{ first_name := scout.first_name, last_name := scout.last_name
                  secondary_identification := toString i
                  correspondence_language_code := DEFAULT_LANGUAGE : PersonCreate }]) []
      if req_create ≠ [] ∧ st.dry_run = false then
        { st with calls := st.calls ++ [ApiCall.createPersons req_create] }
      else st
    else st
  -- Deauthorize removed users
  let st :=
    if deauthorize_persons then
      let deleted_ids := setDiff airkey_ids scoutnet_ids
      let res := deleted_ids.foldl (deauth_step world) (st, [])
      if res.2 ≠ [] ∧ res.1.dry_run = false then
        { res.1 with calls := res.1.calls ++ [ApiCall.deleteAuthorization res.2] }
      else res.1
    else st
  -- Delete removed users
  let st :=
    if delete_persons then
      let deleted_ids := setDiff airkey_ids scoutnet_ids
      let req_delete := deleted_ids.map (fun i => (dictGetD st.persons_by_scoutnet_id i defaultPerson).id)
      if req_delete ≠ [] ∧ st.dry_run = false then
        { st with calls := st.calls ++ [ApiCall.deletePersons req_delete] }
      else st
    else st
  fetch_persons world st

/-- Modelled external-service response to `api.create_phones(req)`: one fresh
medium per requested number, unassigned and unregistered, ids drawn from the
service's sequence. -/
def createPhonesResponse (world : AirkeyWorld) (req : List String) : List Medium :=
  req.enum.map (fun p =>
    { id := world.next_medium_id + p.1, person_id := none, phone_number := p.2
      medium_identifier := none, pairing_code_valid_until := none })

/-- `sync_phones(create_phones, update_phones, delete_phones)`.  Faithful to
the source, the `api.create_phones(req_create)` call in the create branch is
issued whenever `req_create` is nonempty, with no dry-run guard — unlike every
other mutation in the file.  The assignment response is modelled as echoing
the request, as the source iterates it for `m.medium_id`. -/
def sync_phones (world : AirkeyWorld)
    (create_phones update_phones delete_phones : Bool)
    (st : SyncState) : Except String SyncState := do
  let st ← fetch_persons world st
  let st ← fetch_medium world st
  let airkey_ids := dictKeys st.phones_by_scoutnet_id
  let scoutnet_ids := dictKeys st.scoutnet_users
  -- Update existing phones
  let st :=
    if update_phones then
      let existing_ids := setInter scoutnet_ids airkey_ids
      let step := fun (acc : SyncState × List Medium) (i : Nat) =>
        let scout := dictGetD acc.1.scoutnet_users i defaultMember
        let ph := dictGetD acc.1.phones_by_scoutnet_id i defaultMedium
        if scout.contact_mobile_phone ≠ "" ∧ ph.phone_number ≠ scout.contact_mobile_phone then
          let ph' := { ph with phone_number := scout.contact_mobile_phone }
          ({ acc.1 with phones_by_scoutnet_id := dictSet acc.1.phones_by_scoutnet_id i ph' },
           acc.2 ++ [ph'])
        else acc
      let res := existing_ids.foldl step (st, [])
      if res.2 ≠ [] ∧ res.1.dry_run = false then
        { res.1 with calls := res.1.calls ++ [ApiCall.updatePhones res.2] }
      else res.1
    else st
  -- Create new phones
  let st ←
    if create_phones then do
      let created_ids := setDiff scoutnet_ids airkey_ids
      let req_create := created_ids.foldl (fun req i =>
        let scout := dictGetD st.scoutnet_users i defaultMember
        if scout.contact_mobile_phone ≠ "" then req ++ [scout.contact_mobile_phone]
        else req) []
      if req_create ≠ [] then do
        let st := { st with calls := st.calls ++ [ApiCall.createPhones req_create] }
        let res := createPhonesResponse world req_create
        let st ← fetch_medium world st
        let step := fun (acc : SyncState × List MediumAssignment) (phone : Medium) =>
          match dictGet acc.1.phone_to_person_id phone.phone_number with
          | some person_id =>
            if person_id ≠ 0 then
              ({ acc.1 with phones_by_medium_id := dictSet acc.1.phones_by_medium_id phone.id phone },
               acc.2 ++ [{ medium_id := phone.id, person_id := person_id }])
            else acc
          | none => acc
        let res2 := res.foldl step (st, [])
        let st := res2.1
        let req_assign := res2.2
        if req_assign ≠ [] ∧ st.dry_run = false then do
          let st := { st with calls := st.calls ++ [ApiCall.assignOwnerToMedium req_assign] }
          req_assign.foldlM (fun s m => do
            let r ← send_registration_code s m.medium_id
            pure r.1) st
        else pure st
      else pure st
    else pure st
  -- Delete removed phones
  let st :=
    if delete_phones then
      let deleted_ids := setDiff airkey_ids scoutnet_ids
      let req_delete := deleted_ids.map (fun i => (dictGetD st.phones_by_scoutnet_id i defaultMedium).id)
      if req_delete ≠ [] ∧ st.dry_run = false then
        { st with calls := st.calls ++ [ApiCall.deletePhones req_delete] }
      else st
    else st
  pure st

/-- `delete_unassigned_phones()`: paginated phone fetch, collect phones with a
falsy `person_id`, then one batch delete unless dry-run or nothing found. -/
def delete_unassigned_phones (world : AirkeyWorld) (st : SyncState) : SyncState :=
  let st := { st with calls := st.calls ++ [ApiCall.getPhones] }
  let medium := paginate world.phones 0 []
  let unassigned_phones : List Nat := (medium.filter (fun m => !optTruthy m.person_id)).map (·.id)
  if unassigned_phones ≠ [] ∧ st.dry_run = false then
    { st with calls := st.calls ++ [ApiCall.deletePhones unassigned_phones] }
  else st

/-- `sync_auth(area_ids, create_auth, update_auth, delete_auth)`.  The source
issues one `create_or_update_authorizations_with_advanced_options` call per
collected `(medium, area)` request.  The `update_auth` and `delete_auth`
branches only log "not yet implemented". -/
def sync_auth (world : AirkeyWorld) (area_ids : List Nat)
    (create_auth update_auth delete_auth : Bool) (st : SyncState) :
    Except String SyncState := do
  let st ← fetch_persons world st
  let st ← fetch_medium world st
  let st ← fetch_auth world st
  let st := { st with phones_by_medium_id := [] }
  let st :=
    if create_auth then
      let req_create : List (Nat × Nat) := st.persons_by_scoutnet_id.foldl (fun req kv =>
        if !dictHas st.auth_by_scoutnet_id kv.1 then
          match dictGet st.phones_by_scoutnet_id kv.1 with
          | none => req
          | some phone => req ++ area_ids.map (fun area_id => (phone.id, area_id))
        else req) []
      if req_create ≠ [] ∧ st.dry_run = false then
        { st with calls := st.calls ++
            req_create.map (fun r => ApiCall.createAuthorization r.1 r.2) }
      else st
    else st
  pure st

/-- One list entry in the membership service's custom-list catalogue. -/
structure ScoutnetList where
  id : Nat
  aliases : List String
  members : List (Nat × ScoutnetMember)
deriving DecidableEq

/-- Snapshot of the membership service. -/
structure ScoutnetWorld where
  members : List (Nat × ScoutnetMember)
  lists : List ScoutnetList
deriving DecidableEq

/-- `get_key_holders(client, holders)`: collect every member of an
alias-matched list that is also present in the full member mapping; raise
`RuntimeError` when none is found. -/
def get_key_holders (client : ScoutnetWorld) (holders : List String) :
    Except String (List (Nat × ScoutnetMember)) :=
  let members := client.members
  let key_holders_list_ids :=
    (client.lists.filter (fun l => l.aliases.any (fun al => holders.contains al))).map (·.id)
  let key_holders := (client.lists.filter (fun l => key_holders_list_ids.contains l.id)).foldl
    (fun kh l => l.members.foldl
      (fun kh kv =>
        if dictHas kh kv.1 then kh
        else match dictGet members kv.1 with
          | some m => kh ++ [(kv.1, m)]
          | none => kh) kh) []
  if key_holders.length = 0 then .error "RuntimeError: No key holders!"
  else .ok key_holders

/-- The authorizations of the remote snapshot that `_fetch_auth` appends under
scoutnet id `k`, given the person index in force during the auth loop. -/
def resolvedAuths (persons : List (Nat × AirkeyPerson)) (auths : List Authorization)
    (k : Nat) : List Authorization :=
  auths.filter (fun a =>
    (!(a.current_state = "DELETED" : Bool)) &&
    match dictGet persons a.person_id with
    | none => false
    | some person =>
      (!(person.secondary_identification = "" : Bool)) &&
      (parseInt person.secondary_identification == some k))

/-- Count of code-dispatch calls in a trace. -/
def sendCodeCount (calls : List ApiCall) : Nat :=
  calls.countP (fun c => match c with
    | ApiCall.sendRegistrationCodeToPhone _ => true
    | _ => false)

/-- The deauthorization batches in a trace, in order. -/
def deleteAuthBatches (calls : List ApiCall) : List (List AuthDelete) :=
  calls.filterMap (fun c => match c with
    | ApiCall.deleteAuthorization req => some req
    | _ => none)

/-! ### Generic helpers: `Except` bind, `foldlM` invariants, dict lemmas -/

theorem bind_ok_e {α β : Type} (a : α) (f : α → Except String β) :
    (Except.ok a >>= f) = f a := rfl

theorem bind_error_e {α β : Type} (e : String) (f : α → Except String β) :
    ((Except.error e : Except String α) >>= f) = Except.error e := rfl

theorem foldlM_nil_e {σ α : Type} (f : σ → α → Except String σ) (s : σ) :
    List.foldlM f s [] = .ok s := rfl

theorem foldlM_cons_e {σ α : Type} (f : σ → α → Except String σ) (s : σ) (a : α)
    (l : List α) :
    List.foldlM f s (a :: l) = (f s a >>= fun s' => List.foldlM f s' l) := rfl

/-- Invariant preservation through an `Except`-valued left fold. -/
theorem foldlM_inv {σ α : Type} {f : σ → α → Except String σ} {P : σ → Prop} :
    ∀ (l : List α) (s s' : σ),
      (∀ t a, a ∈ l → P t → ∀ t', f t a = .ok t' → P t') →
      P s → List.foldlM f s l = .ok s' → P s' := by
  intro l
  induction l with
  | nil =>
    intro s s' _ hP h
    rw [foldlM_nil_e] at h
    injection h with h
    exact h ▸ hP
  | cons a l ih =>
    intro s s' hstep hP h
    rw [foldlM_cons_e] at h
    cases hfa : f s a with
    | error e => rw [hfa, bind_error_e] at h; exact Except.noConfusion h
    | ok t =>
      rw [hfa, bind_ok_e] at h
      exact ih t s' (fun t a ha => hstep t a (List.mem_cons_of_mem _ ha))
        (hstep s a (List.mem_cons_self _ _) hP t hfa) h

/-- An `Except`-valued left fold succeeds when every step does. -/
theorem foldlM_ok {σ α : Type} {f : σ → α → Except String σ} :
    ∀ (l : List α) (s : σ), (∀ t a, a ∈ l → ∃ t', f t a = .ok t') →
      ∃ s', List.foldlM f s l = .ok s' := by
  intro l
  induction l with
  | nil => intro s _; exact ⟨s, rfl⟩
  | cons a l ih =>
    intro s hstep
    obtain ⟨t, ht⟩ := hstep s a (List.mem_cons_self _ _)
    obtain ⟨s', hs'⟩ := ih t (fun t a ha => hstep t a (List.mem_cons_of_mem _ ha))
    exact ⟨s', by rw [foldlM_cons_e, ht, bind_ok_e]; exact hs'⟩

theorem dictGet_mem {α β : Type} [BEq α] [LawfulBEq α] {d : List (α × β)} {k : α}
    {v : β} (h : dictGet d k = some v) : (k, v) ∈ d := by
  unfold dictGet at h
  cases hf : d.find? (fun kv => kv.1 == k) with
  | none => rw [hf] at h; exact Option.noConfusion h
  | some kv =>
    rw [hf] at h
    injection h with h
    have hk : kv.1 = k := by
      have := List.find?_some hf
      exact eq_of_beq (by simpa using this)
    have hmem := List.mem_of_find?_eq_some hf
    have : kv = (k, v) := by
      cases kv
      simp_all
    exact this ▸ hmem

theorem dictSet_mem {α β : Type} [BEq α] {d : List (α × β)} {k : α} {v : β}
    {kv : α × β} (h : kv ∈ dictSet d k v) : kv ∈ d ∨ kv = (k, v) := by
  unfold dictSet at h
  split at h
  · rcases List.mem_map.mp h with ⟨kv', hkv', heq⟩
    by_cases hk : kv'.1 == k
    · right; simp [hk] at heq; exact heq.symm
    · left; simp [hk] at heq; exact heq ▸ hkv'
  · rcases List.mem_append.mp h with h1 | h1
    · exact Or.inl h1
    · right; simpa using h1

theorem dictGet_map_self {α β : Type} [BEq α] [LawfulBEq α]
    {d : List (α × β)} {k : α} (v : β) (h : dictHas d k = true) :
    dictGet (d.map (fun kv => if kv.1 == k then (k, v) else kv)) k = some v := by
  induction d with
  | nil => simp [dictHas] at h
  | cons kv d ih =>
    by_cases hk : (kv.1 == k) = true
    · simp only [List.map_cons, hk, if_true]
      unfold dictGet
      rw [List.find?_cons_of_pos _ (by simp)]
      rfl
    · have hh : dictHas d k = true := by
        simp only [dictHas, List.any_cons, hk, Bool.false_or] at h
        exact h
      simp only [List.map_cons, hk, if_false]
      unfold dictGet at ih ⊢
      rw [List.find?_cons_of_neg _ (by simpa using hk)]
      exact ih hh

theorem dictGet_append_self {α β : Type} [BEq α] [LawfulBEq α]
    {d : List (α × β)} {k : α} (v : β) (h : dictHas d k = false) :
    dictGet (d ++ [(k, v)]) k = some v := by
  induction d with
  | nil =>
    unfold dictGet
    rw [List.nil_append, List.find?_cons_of_pos _ (by simp)]
    rfl
  | cons kv d ih =>
    simp only [dictHas, List.any_cons, Bool.or_eq_false_iff] at h
    unfold dictGet at ih ⊢
    rw [List.cons_append, List.find?_cons_of_neg _ (by simp [h.1])]
    exact ih (by simpa [dictHas] using h.2)

theorem find?_congr_local {α : Type} {p q : α → Bool} :
    ∀ (l : List α), (∀ a ∈ l, p a = q a) → l.find? p = l.find? q := by
  intro l
  induction l with
  | nil => intro _; rfl
  | cons a l ih =>
    intro h
    by_cases hpa : p a = true
    · rw [List.find?_cons_of_pos _ hpa,
        List.find?_cons_of_pos _ (by rw [← h a (List.mem_cons_self _ _)]; exact hpa)]
    · rw [List.find?_cons_of_neg _ hpa,
        List.find?_cons_of_neg _ (by rw [← h a (List.mem_cons_self _ _)]; exact hpa),
        ih (fun a ha => h a (List.mem_cons_of_mem _ ha))]

theorem dictGet_map_ne {α β : Type} [BEq α] [LawfulBEq α]
    {d : List (α × β)} {k k' : α} (v : β) (h : ¬ k' = k) :
    dictGet (d.map (fun kv => if kv.1 == k then (k, v) else kv)) k' = dictGet d k' := by
  unfold dictGet
  rw [List.find?_map]
  have hcongr : ∀ kv : α × β, kv ∈ d →
      ((fun kv : α × β => kv.1 == k') ∘ (fun kv : α × β => if kv.1 == k then (k, v) else kv)) kv =
      (fun kv : α × β => kv.1 == k') kv := by
    intro kv _
    by_cases hk : (kv.1 == k) = true
    · have hk1 : kv.1 = k := eq_of_beq hk
      simp [hk, hk1]
    · simp [hk]
  rw [find?_congr_local d hcongr]
  cases hf : d.find? (fun kv : α × β => kv.1 == k') with
  | none => rfl
  | some b =>
    have hb : (b.1 == k') = true := by simpa using List.find?_some hf
    have hbk : (b.1 == k) = false := by
      have : b.1 = k' := eq_of_beq hb
      simp [this]
      intro hc
      exact h hc
    simp [hbk]

theorem dictGet_append_ne {α β : Type} [BEq α] [LawfulBEq α]
    {d : List (α × β)} {k k' : α} (v : β) (h : ¬ k' = k) :
    dictGet (d ++ [(k, v)]) k' = dictGet d k' := by
  unfold dictGet
  rw [List.find?_append]
  have : List.find? (fun kv : α × β => kv.1 == k') [(k, v)] = none := by
    rw [List.find?_cons_of_neg]
    · rfl
    · simp
      intro hc
      exact h hc.symm
  rw [this, Option.or_none]
theorem dictGet_dictSet_self {α β : Type} [BEq α] [LawfulBEq α]
    (d : List (α × β)) (k : α) (v : β) : dictGet (dictSet d k v) k = some v := by
  unfold dictSet
  by_cases hh : dictHas d k = true
  · simp only [hh, if_true]
    exact dictGet_map_self v hh
  · simp only [Bool.not_eq_true] at hh
    simp only [hh, Bool.false_eq_true, if_false]
    exact dictGet_append_self v hh

theorem dictGet_dictSet_ne {α β : Type} [BEq α] [LawfulBEq α]
    (d : List (α × β)) (k k' : α) (v : β) (h : ¬ k' = k) :
    dictGet (dictSet d k v) k' = dictGet d k' := by
  unfold dictSet
  by_cases hh : dictHas d k = true
  · simp only [hh, if_true]
    exact dictGet_map_ne v h
  · simp only [Bool.not_eq_true] at hh
    simp only [hh, Bool.false_eq_true, if_false]
    exact dictGet_append_ne v h

theorem dictHas_iff_isSome {α β : Type} [BEq α] (d : List (α × β)) (k : α) :
    dictHas d k = true ↔ (dictGet d k).isSome = true := by
  unfold dictHas dictGet
  rw [List.any_eq_true]
  cases hf : d.find? (fun kv => kv.1 == k) with
  | none =>
    simp only [Option.map_none', Option.isSome_none]
    rw [List.find?_eq_none] at hf
    constructor
    · rintro ⟨kv, hmem, hp⟩
      exact absurd hp (hf kv hmem)
    · intro hc
      exact Bool.noConfusion hc
  | some b =>
    simp only [Option.map_some', Option.isSome_some]
    constructor
    · intro _
      trivial
    · intro _
      exact ⟨b, List.mem_of_find?_eq_some hf, by simpa using List.find?_some hf⟩

theorem dictGet_none_of_not_has {α β : Type} [BEq α] {d : List (α × β)} {k : α}
    (h : dictHas d k = false) : dictGet d k = none := by
  cases hg : dictGet d k with
  | none => rfl
  | some v =>
    have : dictHas d k = true := (dictHas_iff_isSome d k).mpr (by rw [hg]; rfl)
    rw [this] at h
    exact Bool.noConfusion h

theorem dGetL_dictAppend_self {α β : Type} [BEq α] [LawfulBEq α]
    (d : List (α × List β)) (k : α) (a : β) :
    dGetL (dictAppend d k a) k = dGetL d k ++ [a] := by
  unfold dictAppend
  by_cases hh : dictHas d k = true
  · simp only [hh, if_true]
    unfold dGetL dictGet
    rw [List.find?_map]
    rw [find?_congr_local d (p := (fun kv : α × List β => kv.1 == k) ∘
        (fun kv => if kv.1 == k then (kv.1, kv.2 ++ [a]) else kv))
        (q := fun kv : α × List β => kv.1 == k)
        (by
          intro kv _
          by_cases hk : (kv.1 == k) = true <;> simp [hk])]
    have hsome : (d.find? (fun kv : α × List β => kv.1 == k)).isSome = true := by
      rw [List.find?_isSome]
      obtain ⟨kv, hmem, hp⟩ := List.any_eq_true.mp hh
      exact ⟨kv, hmem, hp⟩
    cases hf : d.find? (fun kv : α × List β => kv.1 == k) with
    | none => rw [hf] at hsome; exact Bool.noConfusion hsome
    | some b =>
      have hb : (b.1 == k) = true := by simpa using List.find?_some hf
      simp [hb]
  · simp only [Bool.not_eq_true] at hh
    simp only [hh, Bool.false_eq_true, if_false]
    unfold dGetL
    rw [dictGet_append_self _ hh, dictGet_none_of_not_has hh]
    rfl

theorem dGetL_dictAppend_ne {α β : Type} [BEq α] [LawfulBEq α]
    (d : List (α × List β)) (k k' : α) (a : β) (h : ¬ k' = k) :
    dGetL (dictAppend d k a) k' = dGetL d k' := by
  unfold dictAppend
  by_cases hh : dictHas d k = true
  · simp only [hh, if_true]
    unfold dGetL dictGet
    rw [List.find?_map]
    rw [find?_congr_local d (p := (fun kv : α × List β => kv.1 == k') ∘
        (fun kv => if kv.1 == k then (kv.1, kv.2 ++ [a]) else kv))
        (q := fun kv : α × List β => kv.1 == k')
        (by
          intro kv _
          by_cases hk : (kv.1 == k) = true <;> simp [hk])]
    cases hf : d.find? (fun kv : α × List β => kv.1 == k') with
    | none => rfl
    | some b =>
      have hb : (b.1 == k') = true := by simpa using List.find?_some hf
      have hbk : (b.1 == k) = false := by
        have hb1 : b.1 = k' := eq_of_beq hb
        simp [hb1]
        intro hc
        exact h hc
      simp [hbk]
  · simp only [Bool.not_eq_true] at hh
    simp only [hh, Bool.false_eq_true, if_false]
    unfold dGetL
    rw [dictGet_append_ne _ h]

/-! ### Frame lemmas: which state fields each cache-loading pass can touch -/

theorem fetch_persons_step_frame {st st' : SyncState} {p : AirkeyPerson}
    (h : fetch_persons_step st p = .ok st') :
    st'.dry_run = st.dry_run ∧ st'.scoutnet_users = st.scoutnet_users ∧
    st'.calls = st.calls ∧ st'.phones_by_medium_id = st.phones_by_medium_id ∧
    st'.phones_by_scoutnet_id = st.phones_by_scoutnet_id ∧
    st'.auth_by_auth_id = st.auth_by_auth_id ∧
    st'.auth_by_scoutnet_id = st.auth_by_scoutnet_id := by
  simp only [fetch_persons_step] at h
  split at h
  · injection h with h
    subst h
    exact ⟨rfl, rfl, rfl, rfl, rfl, rfl, rfl⟩
  · split at h
    · exact Except.noConfusion h
    · split at h
      · injection h with h
        subst h
        exact ⟨rfl, rfl, rfl, rfl, rfl, rfl, rfl⟩
      · injection h with h
        subst h
        exact ⟨rfl, rfl, rfl, rfl, rfl, rfl, rfl⟩

theorem fetch_medium_step_frame {st st' : SyncState} {m : Medium}
    (h : fetch_medium_step st m = .ok st') :
    st'.dry_run = st.dry_run ∧ st'.scoutnet_users = st.scoutnet_users ∧
    st'.calls = st.calls ∧ st'.persons_by_person_id = st.persons_by_person_id ∧
    st'.persons_by_scoutnet_id = st.persons_by_scoutnet_id ∧
    st'.person_id_to_scoutnet_id = st.person_id_to_scoutnet_id ∧
    st'.phone_to_person_id = st.phone_to_person_id ∧
    st'.auth_by_auth_id = st.auth_by_auth_id ∧
    st'.auth_by_scoutnet_id = st.auth_by_scoutnet_id := by
  simp only [fetch_medium_step] at h
  split at h
  · split at h
    · exact Except.noConfusion h
    · split at h
      · injection h with h
        subst h
        exact ⟨rfl, rfl, rfl, rfl, rfl, rfl, rfl, rfl, rfl⟩
      · split at h
        · exact Except.noConfusion h
        · injection h with h
          subst h
          exact ⟨rfl, rfl, rfl, rfl, rfl, rfl, rfl, rfl, rfl⟩
  · injection h with h
    subst h
    exact ⟨rfl, rfl, rfl, rfl, rfl, rfl, rfl, rfl, rfl⟩

theorem fetch_auth_step_frame {st st' : SyncState} {a : Authorization}
    (h : fetch_auth_step st a = .ok st') :
    st'.dry_run = st.dry_run ∧ st'.scoutnet_users = st.scoutnet_users ∧
    st'.calls = st.calls ∧ st'.persons_by_person_id = st.persons_by_person_id ∧
    st'.persons_by_scoutnet_id = st.persons_by_scoutnet_id ∧
    st'.person_id_to_scoutnet_id = st.person_id_to_scoutnet_id ∧
    st'.phone_to_person_id = st.phone_to_person_id ∧
    st'.phones_by_medium_id = st.phones_by_medium_id ∧
    st'.phones_by_scoutnet_id = st.phones_by_scoutnet_id := by
  simp only [fetch_auth_step] at h
  split at h
  · injection h with h
    subst h
    exact ⟨rfl, rfl, rfl, rfl, rfl, rfl, rfl, rfl, rfl⟩
  · split at h
    · injection h with h
      subst h
      exact ⟨rfl, rfl, rfl, rfl, rfl, rfl, rfl, rfl, rfl⟩
    · split at h
      · injection h with h
        subst h
        exact ⟨rfl, rfl, rfl, rfl, rfl, rfl, rfl, rfl, rfl⟩
      · split at h
        · exact Except.noConfusion h
        · injection h with h
          subst h
          exact ⟨rfl, rfl, rfl, rfl, rfl, rfl, rfl, rfl, rfl⟩

theorem fetch_persons_frame {world : AirkeyWorld} {st st' : SyncState}
    (h : fetch_persons world st = .ok st') :
    st'.dry_run = st.dry_run ∧ st'.scoutnet_users = st.scoutnet_users ∧
    st'.calls = st.calls ++ [ApiCall.getPersons] ∧
    st'.phones_by_medium_id = st.phones_by_medium_id ∧
    st'.phones_by_scoutnet_id = st.phones_by_scoutnet_id ∧
    st'.auth_by_auth_id = st.auth_by_auth_id ∧
    st'.auth_by_scoutnet_id = st.auth_by_scoutnet_id := by
  unfold fetch_persons at h
  refine foldlM_inv (P := fun t => t.dry_run = st.dry_run ∧
      t.scoutnet_users = st.scoutnet_users ∧
      t.calls = st.calls ++ [ApiCall.getPersons] ∧
      t.phones_by_medium_id = st.phones_by_medium_id ∧
      t.phones_by_scoutnet_id = st.phones_by_scoutnet_id ∧
      t.auth_by_auth_id = st.auth_by_auth_id ∧
      t.auth_by_scoutnet_id = st.auth_by_scoutnet_id)
    (paginate world.persons 0 []) _ st' ?_ ?_ h
  · intro t a _ hP t' ht
    obtain ⟨f1, f2, f3, f4, f5, f6, f7⟩ := fetch_persons_step_frame ht
    exact ⟨f1.trans hP.1, f2.trans hP.2.1, f3.trans hP.2.2.1, f4.trans hP.2.2.2.1,
      f5.trans hP.2.2.2.2.1, f6.trans hP.2.2.2.2.2.1, f7.trans hP.2.2.2.2.2.2⟩
  · exact ⟨rfl, rfl, rfl, rfl, rfl, rfl, rfl⟩

theorem fetch_medium_loop_frame {world : AirkeyWorld} {st st' : SyncState}
    (h : fetch_medium_loop world st = .ok st') :
    st'.dry_run = st.dry_run ∧ st'.scoutnet_users = st.scoutnet_users ∧
    st'.calls = st.calls ++ [ApiCall.getPhones] ∧
    st'.persons_by_person_id = st.persons_by_person_id ∧
    st'.persons_by_scoutnet_id = st.persons_by_scoutnet_id ∧
    st'.person_id_to_scoutnet_id = st.person_id_to_scoutnet_id ∧
    st'.phone_to_person_id = st.phone_to_person_id ∧
    st'.auth_by_auth_id = st.auth_by_auth_id ∧
    st'.auth_by_scoutnet_id = st.auth_by_scoutnet_id := by
  unfold fetch_medium_loop at h
  refine foldlM_inv (P := fun t => t.dry_run = st.dry_run ∧
      t.scoutnet_users = st.scoutnet_users ∧
      t.calls = st.calls ++ [ApiCall.getPhones] ∧
      t.persons_by_person_id = st.persons_by_person_id ∧
      t.persons_by_scoutnet_id = st.persons_by_scoutnet_id ∧
      t.person_id_to_scoutnet_id = st.person_id_to_scoutnet_id ∧
      t.phone_to_person_id = st.phone_to_person_id ∧
      t.auth_by_auth_id = st.auth_by_auth_id ∧
      t.auth_by_scoutnet_id = st.auth_by_scoutnet_id)
    (paginate world.phones 0 []) _ st' ?_ ?_ h
  · intro t a _ hP t' ht
    obtain ⟨f1, f2, f3, f4, f5, f6, f7, f8, f9⟩ := fetch_medium_step_frame ht
    exact ⟨f1.trans hP.1, f2.trans hP.2.1, f3.trans hP.2.2.1, f4.trans hP.2.2.2.1,
      f5.trans hP.2.2.2.2.1, f6.trans hP.2.2.2.2.2.1, f7.trans hP.2.2.2.2.2.2.1,
      f8.trans hP.2.2.2.2.2.2.2.1, f9.trans hP.2.2.2.2.2.2.2.2⟩
  · exact ⟨rfl, rfl, rfl, rfl, rfl, rfl, rfl, rfl, rfl⟩

theorem fetch_medium_frame {world : AirkeyWorld} {st st' : SyncState}
    (h : fetch_medium world st = .ok st') :
    st'.dry_run = st.dry_run ∧ st'.scoutnet_users = st.scoutnet_users ∧
    st'.calls = st.calls ++ [ApiCall.getPersons, ApiCall.getPhones] ∧
    st'.auth_by_auth_id = st.auth_by_auth_id ∧
    st'.auth_by_scoutnet_id = st.auth_by_scoutnet_id := by
  unfold fetch_medium at h
  cases hf : fetch_persons world st with
  | error e =>
    rw [hf, bind_error_e] at h
    exact Except.noConfusion h
  | ok st1 =>
    rw [hf, bind_ok_e] at h
    obtain ⟨p1, p2, p3, p4, p5, p6, p7⟩ := fetch_persons_frame hf
    obtain ⟨m1, m2, m3, m4, m5, m6, m7, m8, m9⟩ := fetch_medium_loop_frame h
    refine ⟨m1.trans p1, m2.trans p2, ?_, m8.trans p6, m9.trans p7⟩
    rw [m3, p3, List.append_assoc]
    rfl

theorem fetch_auth_loop_frame {world : AirkeyWorld} {st st' : SyncState}
    (h : fetch_auth_loop world st = .ok st') :
    st'.dry_run = st.dry_run ∧ st'.scoutnet_users = st.scoutnet_users ∧
    st'.calls = st.calls ++ [ApiCall.getAuthorizations none] ∧
    st'.persons_by_person_id = st.persons_by_person_id ∧
    st'.persons_by_scoutnet_id = st.persons_by_scoutnet_id ∧
    st'.person_id_to_scoutnet_id = st.person_id_to_scoutnet_id ∧
    st'.phone_to_person_id = st.phone_to_person_id ∧
    st'.phones_by_medium_id = st.phones_by_medium_id ∧
    st'.phones_by_scoutnet_id = st.phones_by_scoutnet_id := by
  unfold fetch_auth_loop at h
  refine foldlM_inv (P := fun t => t.dry_run = st.dry_run ∧
      t.scoutnet_users = st.scoutnet_users ∧
      t.calls = st.calls ++ [ApiCall.getAuthorizations none] ∧
      t.persons_by_person_id = st.persons_by_person_id ∧
      t.persons_by_scoutnet_id = st.persons_by_scoutnet_id ∧
      t.person_id_to_scoutnet_id = st.person_id_to_scoutnet_id ∧
      t.phone_to_person_id = st.phone_to_person_id ∧
      t.phones_by_medium_id = st.phones_by_medium_id ∧
      t.phones_by_scoutnet_id = st.phones_by_scoutnet_id)
    (paginate world.auths 0 []) _ st' ?_ ?_ h
  · intro t a _ hP t' ht
    obtain ⟨f1, f2, f3, f4, f5, f6, f7, f8, f9⟩ := fetch_auth_step_frame ht
    exact ⟨f1.trans hP.1, f2.trans hP.2.1, f3.trans hP.2.2.1, f4.trans hP.2.2.2.1,
      f5.trans hP.2.2.2.2.1, f6.trans hP.2.2.2.2.2.1, f7.trans hP.2.2.2.2.2.2.1,
      f8.trans hP.2.2.2.2.2.2.2.1, f9.trans hP.2.2.2.2.2.2.2.2⟩
  · exact ⟨rfl, rfl, rfl, rfl, rfl, rfl, rfl, rfl, rfl⟩

theorem fetch_auth_frame {world : AirkeyWorld} {st st' : SyncState}
    (h : fetch_auth world st = .ok st') :
    st'.dry_run = st.dry_run ∧ st'.scoutnet_users = st.scoutnet_users ∧
    st'.calls = st.calls ++ [ApiCall.getPersons, ApiCall.getAuthorizations none] ∧
    st'.phones_by_medium_id = st.phones_by_medium_id ∧
    st'.phones_by_scoutnet_id = st.phones_by_scoutnet_id := by
  unfold fetch_auth at h
  cases hf : fetch_persons world st with
  | error e =>
    rw [hf, bind_error_e] at h
    exact Except.noConfusion h
  | ok st1 =>
    rw [hf, bind_ok_e] at h
    obtain ⟨p1, p2, p3, p4, p5, p6, p7⟩ := fetch_persons_frame hf
    obtain ⟨a1, a2, a3, a4, a5, a6, a7, a8, a9⟩ := fetch_auth_loop_frame h
    refine ⟨a1.trans p1, a2.trans p2, ?_, a8.trans p4, a9.trans p5⟩
    rw [a3, p3, List.append_assoc]
    rfl

/-! ### C1: dry-run and the unguarded `create_phones` call -/

/-- Roster member used in the C1 scenario. -/
def memberC1 : ScoutnetMember :=
  { first_name := "Anna", last_name := "Ek", contact_mobile_phone := "+46701234567"
    display_name := "Anna Ek", email := "anna@example.com" }

/-- Airkey snapshot for C1: the member's person record exists remotely
(secondary identification "1") but no phone medium does. -/
def worldC1 : AirkeyWorld :=
  { persons := [{ id := 10, first_name := "Anna", last_name := "Ek"
                  secondary_identification := "1" }]
    phones := [], auths := [], next_medium_id := 1000 }

/-- Engine state for C1: dry-run mode. -/
def stC1 : SyncState := initState [(1, memberC1)] true

/-- The state `sync_phones` produces on the C1 input. -/
def outC1 : SyncState :=
  match sync_phones worldC1 true false false stC1 with
  | .ok st => st
  | .error _ => stC1

/-- C1: the claim says that with `dry_run = true` no engine operation issues
any remote mutation call, and in particular that phone creation in
`sync_phones` issues no create call.  Evaluating the embedded `sync_phones`
at a dry-run state whose roster has one member (with a phone number) and
whose remote snapshot has no phone shows that `api.create_phones` is issued
anyway: the source guards every other mutation with `not self.dry_run` but
the create branch's `if req_create:` has no such guard. -/
theorem C1_dry_run_create_phones_mutates :
    stC1.dry_run = true ∧
    sync_phones worldC1 true false false stC1 = .ok outC1 ∧
    ApiCall.createPhones ["+46701234567"] ∈ outC1.calls ∧
    (ApiCall.createPhones ["+46701234567"]).isMutation = true := by
  refine ⟨rfl, rfl, ?_, rfl⟩
  decide

/-! ### C9: `limit=0` reads the unassigned `sent` local -/

/-- C9: with `limit=0` and a nonempty phone cache the first loop iteration of
`send_pending_registration_codes` skips the guarded call (so the local `sent`
is never assigned) and then evaluates `if sent and ...`, raising
`UnboundLocalError`, instead of sending nothing and reporting count 0. -/
theorem C9_limit_zero_unbound_local (world : AirkeyWorld) (st st₁ : SyncState)
    (hf : fetch_medium world st = .ok st₁)
    (hne : st₁.phones_by_medium_id ≠ []) :
    send_pending_registration_codes world (some 0) st = .error "UnboundLocalError" := by
  unfold send_pending_registration_codes
  rw [hf, bind_ok_e]
  show send_pending_loop st₁ 0 (some 0) none (dictKeys st₁.phones_by_medium_id) =
    .error "UnboundLocalError"
  cases hk : st₁.phones_by_medium_id with
  | nil => exact absurd hk hne
  | cons kv d =>
    simp [send_pending_loop, limitOpen, dictKeys]

/-- Member backing the C9 witness. -/
def memberC9 : ScoutnetMember :=
  { first_name := "Anna", last_name := "Ek", contact_mobile_phone := "+46701234567"
    display_name := "Anna Ek", email := "anna@example.com" }

/-- Airkey snapshot for the C9 witness: one phone medium in the cache. -/
def worldC9 : AirkeyWorld :=
  { persons := [{ id := 10, first_name := "Anna", last_name := "Ek"
                  secondary_identification := "1" }]
    phones := [{ id := 20, person_id := some 10, phone_number := "+46701234567"
                 medium_identifier := none, pairing_code_valid_until := none }]
    auths := [], next_medium_id := 1000 }

/-- Live-mode engine state for the C9 witness. -/
def stC9 : SyncState := initState [(1, memberC9)] false

/-- Cache state after `fetch_medium` on the C9 input. -/
def stC9fetched : SyncState :=
  match fetch_medium worldC9 stC9 with
  | .ok st => st
  | .error _ => stC9

/-- Witness for C9 at the concrete input. -/
theorem C9_limit_zero_unbound_local_witness :
    fetch_medium worldC9 stC9 = .ok stC9fetched ∧
    stC9fetched.phones_by_medium_id ≠ [] ∧
    send_pending_registration_codes worldC9 (some 0) stC9 = .error "UnboundLocalError" :=
  ⟨rfl, by decide, C9_limit_zero_unbound_local worldC9 stC9 stC9fetched rfl (by decide)⟩

/-! ### C10: unresolvable owner crashes `send_registration_code` -/

/-- C10: for an unregistered phone (`medium_identifier is None`) whose owner
does not resolve to a roster member (`resolveScout` returns `none`), both
logging branches of `send_registration_code` evaluate `scout.display_name`,
raising `AttributeError` — whether or not a pairing code is pending — instead
of skipping the phone or reporting it as anonymous.  The function is the one
reached from both `send_pending_registration_codes` and `sync_phones`. -/
theorem C10_unresolved_owner_attribute_error (st : SyncState) (medium_id : Nat)
    (phone : Medium)
    (hget : dictGet st.phones_by_medium_id medium_id = some phone)
    (hunreg : phone.medium_identifier = none)
    (hscout : resolveScout st phone = none) :
    send_registration_code st medium_id = .error "AttributeError" := by
  unfold send_registration_code
  rw [hget]
  cases hvu : phone.pairing_code_valid_until with
  | some t => simp only [hunreg, hvu, hscout]
  | none => simp only [hunreg, hvu, hscout]

/-- The C10 witness phone: unregistered and unassigned. -/
def phoneC10 : Medium :=
  { id := 20, person_id := none, phone_number := "+46701234567"
    medium_identifier := none, pairing_code_valid_until := none }

/-- Engine state holding the C10 witness phone in its cache. -/
def stC10 : SyncState :=
  { initState [] false with phones_by_medium_id := [(20, phoneC10)] }

/-- Witness for C10 at the concrete input. -/
theorem C10_unresolved_owner_attribute_error_witness :
    dictGet stC10.phones_by_medium_id 20 = some phoneC10 ∧
    phoneC10.medium_identifier = none ∧
    resolveScout stC10 phoneC10 = none ∧
    send_registration_code stC10 20 = .error "AttributeError" :=
  ⟨by decide, rfl, rfl,
   C10_unresolved_owner_attribute_error stC10 20 phoneC10 (by decide) rfl rfl⟩

/-! ### C6: pending-code handling never consults expiry -/

/-- C6 (amended): for an unregistered phone with a resolvable owner, the
dispatcher's only test is whether `pairing_code_valid_until` is set: any set
value — expired or not — means skip (no duplicate code), and only an absent
value leads to generating and dispatching a new code (in live mode); the
pending-registration report counts every unregistered phone whose
`pairing_code_valid_until` is set, again regardless of expiry. -/
theorem C6_skip_iff_valid_until_set (st : SyncState) (medium_id : Nat)
    (phone : Medium) (scout : ScoutnetMember)
    (hget : dictGet st.phones_by_medium_id medium_id = some phone)
    (hunreg : phone.medium_identifier = none)
    (hscout : resolveScout st phone = some scout) :
    (∀ t : Nat, phone.pairing_code_valid_until = some t →
      send_registration_code st medium_id = .ok (st, false)) ∧
    (phone.pairing_code_valid_until = none → st.dry_run = false →
      send_registration_code st medium_id =
        .ok ({ st with calls := st.calls ++
          [ApiCall.generatePairingCode phone.id,
           ApiCall.sendRegistrationCodeToPhone phone.id] }, true)) ∧
    (phone.pairing_code_valid_until ≠ none → 1 ≤ listPendingCount st) := by
  refine ⟨?_, ?_, ?_⟩
  · intro t ht
    unfold send_registration_code
    rw [hget]
    simp only [hunreg, ht, hscout]
  · intro ht hdry
    unfold send_registration_code
    rw [hget]
    simp only [hunreg, ht, hscout, hdry]
    rfl
  · intro ht
    have hmem := dictGet_mem hget
    unfold listPendingCount
    exact List.countP_pos_iff.mpr
      ⟨(medium_id, phone), hmem, by simp [hunreg, Option.isSome_iff_ne_none, ht]⟩

/-- C6 counterexample member (resolvable owner). -/
def memberC6 : ScoutnetMember :=
  { first_name := "Anna", last_name := "Ek", contact_mobile_phone := "+46701234567"
    display_name := "Anna Ek", email := "anna@example.com" }

/-- C6 counterexample phone: unregistered, with a pairing code that became
invalid at time 0 — i.e. expired at every later clock value. -/
def phoneC6 : Medium :=
  { id := 20, person_id := some 10, phone_number := "+46701234567"
    medium_identifier := none, pairing_code_valid_until := some 0 }

/-- Engine state holding the C6 counterexample phone with its owner fully
resolvable (person 10 ↔ scoutnet id 1). -/
def stC6 : SyncState :=
  { initState [(1, memberC6)] false with
    phones_by_medium_id := [(20, phoneC6)]
    person_id_to_scoutnet_id := [(10, 1)] }

/-- C6 counterexample: the claim says a phone whose pending code has expired
gets a new code generated and dispatched.  The phone below carries a code that
expired at time 0 (so it is expired at the clock value 1, and at every later
one — the code never reads a clock), yet live-mode `send_registration_code`
returns `false` and leaves the call trace unchanged: no code is generated or
dispatched. -/
theorem C6_expired_code_not_redispatched :
    phoneC6.medium_identifier = none ∧
    phoneC6.pairing_code_valid_until = some 0 ∧ (0 : Nat) < 1 ∧
    stC6.dry_run = false ∧
    send_registration_code stC6 20 = .ok (stC6, false) := by
  exact ⟨rfl, rfl, by decide, rfl, rfl⟩

/-- C6 witness phone (no pending code, so a code is dispatched). -/
def phoneC6w : Medium :=
  { id := 21, person_id := some 10, phone_number := "+46701234567"
    medium_identifier := none, pairing_code_valid_until := none }

/-- Engine state for the C6 witness. -/
def stC6w : SyncState :=
  { initState [(1, memberC6)] false with
    phones_by_medium_id := [(20, phoneC6), (21, phoneC6w)]
    person_id_to_scoutnet_id := [(10, 1)] }

/-- Witness for C6 at the concrete inputs: one phone with a (stale) pending
code is skipped yet counted by the report, one phone without a pending code
gets the generate-and-send pair dispatched. -/
theorem C6_skip_iff_valid_until_set_witness :
    dictGet stC6w.phones_by_medium_id 20 = some phoneC6 ∧
    phoneC6.medium_identifier = none ∧
    resolveScout stC6w phoneC6 = some memberC6 ∧
    send_registration_code stC6w 20 = .ok (stC6w, false) ∧
    1 ≤ listPendingCount stC6w ∧
    dictGet stC6w.phones_by_medium_id 21 = some phoneC6w ∧
    resolveScout stC6w phoneC6w = some memberC6 ∧
    send_registration_code stC6w 21 =
      .ok ({ stC6w with calls := stC6w.calls ++
        [ApiCall.generatePairingCode 21,
         ApiCall.sendRegistrationCodeToPhone 21] }, true) := by
  have h20 := C6_skip_iff_valid_until_set stC6w 20 phoneC6 memberC6
    (by decide) rfl (by decide)
  have h21 := C6_skip_iff_valid_until_set stC6w 21 phoneC6w memberC6
    (by decide) rfl (by decide)
  exact ⟨by decide, rfl, rfl, h20.1 0 rfl, h20.2.2 (by decide),
    by decide, rfl, h21.2.1 rfl rfl⟩

/-! ### C5: the send limit and the reported count -/

/-- Case analysis of a successful `send_registration_code`: a `false` return
leaves the state untouched; a `true` return happens only in live mode and
appends exactly the generate-and-send call pair. -/
theorem send_registration_code_cases {st st' : SyncState} {medium_id : Nat}
    {b : Bool} (h : send_registration_code st medium_id = .ok (st', b)) :
    (b = false ∧ st' = st) ∨
    (b = true ∧ st.dry_run = false ∧ ∃ pid,
      st' = { st with calls := st.calls ++
        [ApiCall.generatePairingCode pid,
         ApiCall.sendRegistrationCodeToPhone pid] }) := by
  unfold send_registration_code at h
  split at h
  · exact Except.noConfusion h
  · next phone hphone =>
    split at h
    · injection h with h
      injection h with h1 h2
      exact Or.inl ⟨h2.symm, h1.symm⟩
    · split at h
      · split at h
        · exact Except.noConfusion h
        · injection h with h
          injection h with h1 h2
          exact Or.inl ⟨h2.symm, h1.symm⟩
      · split at h
        · exact Except.noConfusion h
        · split at h
          · injection h with h
            injection h with h1 h2
            exact Or.inl ⟨h2.symm, h1.symm⟩
          · next hdry =>
            injection h with h
            injection h with h1 h2
            refine Or.inr ⟨h2.symm, ?_, phone.id, h1.symm⟩
            simpa using hdry

/-- Appending one generate-and-send pair adds exactly one dispatch to the
count. -/
theorem sendCodeCount_append_pair (l : List ApiCall) (pid : Nat) :
    sendCodeCount (l ++ [ApiCall.generatePairingCode pid,
      ApiCall.sendRegistrationCodeToPhone pid]) = sendCodeCount l + 1 := by
  unfold sendCodeCount
  rw [List.countP_append]
  rfl

/-- The dispatch loop of `send_pending_registration_codes` with a finite
limit: the returned count equals the number of dispatch calls added to the
trace, and the count never exceeds the remaining limit. -/
theorem send_pending_loop_count :
    ∀ (keys : List Nat) (n : Int) (st : SyncState) (count : Nat)
      (sent : Option Bool) (st' : SyncState) (c : Nat),
      send_pending_loop st count (some n) sent keys = .ok (st', c) →
      sendCodeCount st'.calls + count = sendCodeCount st.calls + c ∧
      c ≤ count + n.toNat := by
  intro keys
  induction keys with
  | nil =>
    intro n st count sent st' c h
    simp only [send_pending_loop] at h
    injection h with h
    injection h with h1 h2
    subst h1
    subst h2
    exact ⟨rfl, Nat.le_add_right _ _⟩
  | cons medium_id rest ih =>
    intro n st count sent st' c h
    simp only [send_pending_loop] at h
    by_cases hopen : limitOpen (some n) = true
    · rw [if_pos hopen] at h
      have hn : 0 < n := by
        simpa [limitOpen] using hopen
      cases hsrc : send_registration_code st medium_id with
      | error e =>
        rw [hsrc] at h
        exact Except.noConfusion h
      | ok r =>
        obtain ⟨st₁, s⟩ := r
        rw [hsrc] at h
        dsimp only at h
        rcases send_registration_code_cases hsrc with ⟨hs, hst⟩ | ⟨hs, hdry, pid, hst⟩
        · subst hs
          subst hst
          rw [if_neg (by simp)] at h
          have hrec := ih n st₁ _ (some false) st' c h
          simp only [Bool.false_eq_true, if_false, Nat.add_zero] at hrec
          omega
        · subst hs
          subst hst
          rw [if_pos ⟨rfl, by simp, hopen⟩] at h
          simp only [Option.map_some'] at h
          have hrec := ih (n - 1) _ _ (some true) st' c h
          simp only [if_true, sendCodeCount_append_pair] at hrec
          omega
    · rw [if_neg hopen] at h
      have hn : ¬ 0 < n := by
        simpa [limitOpen] using hopen
      cases sent with
      | none => exact Except.noConfusion h
      | some s =>
        dsimp only at h
        rw [if_neg (by simp [hopen])] at h
        have hrec := ih n st count (some s) st' c h
        omega

/-- Whether `send_registration_code` would actually dispatch a code to this
cached phone: it must be in the cache, unregistered, without a pending code,
with a resolvable owner (otherwise the call raises), and the run must be
live.  Its value depends only on the caches — never on the call trace. -/
def wouldSend (st : SyncState) (medium_id : Nat) : Bool :=
  match dictGet st.phones_by_medium_id medium_id with
  | none => false
  | some phone =>
    match phone.medium_identifier with
    | some _ => false
    | none =>
      match phone.pairing_code_valid_until with
      | some _ => false
      | none =>
        match resolveScout st phone with
        | none => false
        | some _ => !st.dry_run

/-- On a non-raising call, the returned flag is exactly `wouldSend`. -/
theorem send_registration_code_flag {st st' : SyncState} {medium_id : Nat}
    {s : Bool} (h : send_registration_code st medium_id = .ok (st', s)) :
    s = wouldSend st medium_id := by
  unfold send_registration_code at h
  unfold wouldSend
  cases hphone : dictGet st.phones_by_medium_id medium_id with
  | none =>
    simp only [hphone] at h
    exact Except.noConfusion h
  | some phone =>
    cases hreg : phone.medium_identifier with
    | some dev =>
      simp only [hphone, hreg] at h ⊢
      injection h with h
      injection h with h1 h2
      exact h2.symm
    | none =>
      cases hvu : phone.pairing_code_valid_until with
      | some t =>
        cases hscout : resolveScout st phone with
        | none =>
          simp only [hphone, hreg, hvu, hscout] at h
          exact Except.noConfusion h
        | some scout =>
          simp only [hphone, hreg, hvu, hscout] at h ⊢
          injection h with h
          injection h with h1 h2
          exact h2.symm
      | none =>
        cases hscout : resolveScout st phone with
        | none =>
          simp only [hphone, hreg, hvu, hscout] at h
          exact Except.noConfusion h
        | some scout =>
          cases hdry : st.dry_run with
          | true =>
            simp only [hphone, hreg, hvu, hscout] at h
            simp only [hphone, hreg, hvu, hscout, hdry]
            rw [if_pos hdry] at h
            injection h with h
            injection h with h1 h2
            exact h2.symm
          | false =>
            simp only [hphone, hreg, hvu, hscout] at h
            simp only [hphone, hreg, hvu, hscout, hdry]
            rw [if_neg (by rw [hdry]; exact Bool.false_ne_true)] at h
            injection h with h
            injection h with h1 h2
            exact h2.symm

/-- The dispatch loop with a finite limit sends to exactly the first
`min limit (number of would-send phones)` phones: the returned count is
`min n.toNat (countP wouldSend keys)`, so skipped phones never consume the
limit. -/
theorem send_pending_loop_exact :
    ∀ (keys : List Nat) (n : Int) (st : SyncState) (count : Nat)
      (sent : Option Bool) (st' : SyncState) (c : Nat),
      send_pending_loop st count (some n) sent keys = .ok (st', c) →
      c = count + min n.toNat (keys.countP (wouldSend st)) := by
  intro keys
  induction keys with
  | nil =>
    intro n st count sent st' c h
    simp only [send_pending_loop] at h
    injection h with h
    injection h with h1 h2
    subst h2
    simp
  | cons medium_id rest ih =>
    intro n st count sent st' c h
    simp only [send_pending_loop] at h
    rw [List.countP_cons]
    by_cases hopen : limitOpen (some n) = true
    · rw [if_pos hopen] at h
      have hn : 0 < n := by
        simpa [limitOpen] using hopen
      cases hsrc : send_registration_code st medium_id with
      | error e =>
        rw [hsrc] at h
        exact Except.noConfusion h
      | ok r =>
        obtain ⟨st₁, s⟩ := r
        rw [hsrc] at h
        dsimp only at h
        have hflag := send_registration_code_flag hsrc
        rcases send_registration_code_cases hsrc with ⟨hs, hst⟩ | ⟨hs, hdry, pid, hst⟩
        · subst hs
          subst hst
          rw [if_neg (by simp)] at h
          have hrec := ih n st₁ _ (some false) st' c h
          rw [← hflag]
          simp only [Bool.false_eq_true, if_false, Nat.add_zero] at hrec ⊢
          omega
        · subst hs
          subst hst
          rw [if_pos ⟨rfl, by simp, hopen⟩] at h
          simp only [Option.map_some'] at h
          have hrec := ih (n - 1) _ _ (some true) st' c h
          have hws : wouldSend { st with calls := st.calls ++
              [ApiCall.generatePairingCode pid,
               ApiCall.sendRegistrationCodeToPhone pid] } = wouldSend st := rfl
          rw [hws] at hrec
          rw [← hflag]
          simp only [if_true] at hrec ⊢
          omega
    · rw [if_neg hopen] at h
      have hn : ¬ 0 < n := by
        simpa [limitOpen] using hopen
      cases sent with
      | none => exact Except.noConfusion h
      | some s =>
        dsimp only at h
        rw [if_neg (by simp [hopen])] at h
        have hrec := ih n st count (some s) st' c h
        omega

/-- C5: in a live run with a positive limit `n`, at most `n` codes are sent,
the reported count equals the number of pairing codes actually dispatched,
and that count is exactly `min n (number of cached phones that would receive
a code)` — so the limit is consumed only by phones to which a code was
actually sent, never by skipped ones (a skipped phone leaves both the count
and the remaining limit unchanged). -/
theorem C5_limit_bounds_sends (world : AirkeyWorld) (st st₁ st' : SyncState)
    (n : Int) (c : Nat) (hdry : st.dry_run = false) (hn : 0 < n)
    (hf : fetch_medium world st = .ok st₁)
    (h : send_pending_registration_codes world (some n) st = .ok (st', c)) :
    c ≤ n.toNat ∧
    sendCodeCount st'.calls = sendCodeCount st.calls + c ∧
    c = min n.toNat ((dictKeys st₁.phones_by_medium_id).countP (wouldSend st₁)) := by
  unfold send_pending_registration_codes at h
  rw [hf, bind_ok_e] at h
  obtain ⟨hcnt, hbound⟩ := send_pending_loop_count
    (dictKeys st₁.phones_by_medium_id) n st₁ 0 none st' c h
  have hexact := send_pending_loop_exact
    (dictKeys st₁.phones_by_medium_id) n st₁ 0 none st' c h
  obtain ⟨m1, m2, m3, m4, m5⟩ := fetch_medium_frame hf
  have hsame : sendCodeCount st₁.calls = sendCodeCount st.calls := by
    rw [m3]
    unfold sendCodeCount
    rw [List.countP_append]
    rfl
  refine ⟨by omega, by omega, by omega⟩

/-- Roster members for the C5 witness scenario. -/
def memberC5a : ScoutnetMember :=
  { first_name := "Anna", last_name := "Ek", contact_mobile_phone := "+46701111111"
    display_name := "Anna Ek", email := "anna@example.com" }

/-- Second roster member for C5. -/
def memberC5b : ScoutnetMember :=
  { first_name := "Bo", last_name := "Ek", contact_mobile_phone := "+46702222222"
    display_name := "Bo Ek", email := "bo@example.com" }

/-- Third roster member for C5. -/
def memberC5c : ScoutnetMember :=
  { first_name := "Cy", last_name := "Ek", contact_mobile_phone := "+46703333333"
    display_name := "Cy Ek", email := "cy@example.com" }

/-- Airkey snapshot for C5: two phones that must be skipped (one already
registered, one with a pending pairing code) cached AHEAD of three eligible
unregistered phones (no device identifier, no pending code), all owned by
resolvable persons. -/
def worldC5 : AirkeyWorld :=
  { persons := [{ id := 10, first_name := "Anna", last_name := "Ek", secondary_identification := "1" },
                { id := 11, first_name := "Bo", last_name := "Ek", secondary_identification := "2" },
                { id := 12, first_name := "Cy", last_name := "Ek", secondary_identification := "3" }]
    phones := [{ id := 18, person_id := some 10, phone_number := "+46701111111"
                 medium_identifier := some "registered-device", pairing_code_valid_until := none },
               { id := 19, person_id := some 10, phone_number := "+46701111111"
                 medium_identifier := none, pairing_code_valid_until := some 99 },
               { id := 20, person_id := some 10, phone_number := "+46701111111"
                 medium_identifier := none, pairing_code_valid_until := none },
               { id := 21, person_id := some 11, phone_number := "+46702222222"
                 medium_identifier := none, pairing_code_valid_until := none },
               { id := 22, person_id := some 12, phone_number := "+46703333333"
                 medium_identifier := none, pairing_code_valid_until := none }]
    auths := [], next_medium_id := 1000 }

/-- Live-mode engine state for the C5 witness. -/
def stC5 : SyncState := initState [(1, memberC5a), (2, memberC5b), (3, memberC5c)] false

/-- Result of `send_pending_registration_codes(limit=1)` on the C5 input. -/
def outC5 : SyncState × Nat :=
  match send_pending_registration_codes worldC5 (some 1) stC5 with
  | .ok r => r
  | .error _ => (stC5, 0)

/-- The cache state after `fetch_medium` on the C5 input. -/
def stC5fetched : SyncState :=
  match fetch_medium worldC5 stC5 with
  | .ok st => st
  | .error _ => stC5

/-- Witness for C5: two skipped phones (registered / pending code) cached
ahead of three eligible unregistered phones, `limit=1` — the skips consume
nothing, exactly one code is dispatched and the reported count is 1, which
equals `min 1 3` where 3 is the number of would-send phones in the cache. -/
theorem C5_limit_bounds_sends_witness :
    stC5.dry_run = false ∧ (0 : Int) < 1 ∧
    fetch_medium worldC5 stC5 = .ok stC5fetched ∧
    send_pending_registration_codes worldC5 (some 1) stC5 = .ok (outC5.1, outC5.2) ∧
    outC5.2 ≤ (1 : Int).toNat ∧
    sendCodeCount outC5.1.calls = sendCodeCount stC5.calls + outC5.2 ∧
    outC5.2 = min (1 : Int).toNat
      ((dictKeys stC5fetched.phones_by_medium_id).countP (wouldSend stC5fetched)) ∧
    ((dictKeys stC5fetched.phones_by_medium_id).countP (wouldSend stC5fetched)) = 3 ∧
    (wouldSend stC5fetched 18 = false ∧ wouldSend stC5fetched 19 = false) ∧
    outC5.2 = 1 := by
  have hmain := C5_limit_bounds_sends worldC5 stC5 stC5fetched outC5.1 1 outC5.2
    rfl (by decide) rfl rfl
  exact ⟨rfl, by decide, rfl, rfl, hmain.1, hmain.2.1, hmain.2.2, by decide,
    ⟨by decide, by decide⟩, by decide⟩

/-! ### C2: absent vs non-numeric secondary identification -/

/-- One person-indexing step succeeds exactly when the secondary
identification is absent or numeric. -/
theorem fetch_persons_step_ok (st : SyncState) (p : AirkeyPerson)
    (h : p.secondary_identification = "" ∨
      (parseInt p.secondary_identification).isSome = true) :
    ∃ st', fetch_persons_step st p = .ok st' := by
  cases hr : fetch_persons_step st p with
  | ok st' => exact ⟨st', rfl⟩
  | error e =>
    exfalso
    simp only [fetch_persons_step] at hr
    split at hr
    · exact Except.noConfusion hr
    · next hsec =>
      split at hr
      · next hparse =>
        rcases h with h | h
        · exact hsec h
        · rw [hparse] at h
          exact Bool.noConfusion h
      · split at hr
        · exact Except.noConfusion hr
        · exact Except.noConfusion hr

/-- The person fetch pass completes when every remote person's secondary
identification is absent or numeric. -/
theorem fetch_persons_ok (world : AirkeyWorld) (st : SyncState)
    (h : ∀ p ∈ world.persons, p.secondary_identification = "" ∨
      (parseInt p.secondary_identification).isSome = true) :
    ∃ st', fetch_persons world st = .ok st' := by
  unfold fetch_persons
  refine foldlM_ok _ _ ?_
  intro t p hp
  rw [paginate_zero] at hp
  exact fetch_persons_step_ok t p (h p hp)

/-- A person-indexing step for a record that is either foreign (absent
secondary identification) or belongs to someone else preserves the fact that
`pid` is absent from the correlation indices. -/
theorem fetch_persons_step_foreign {pid : Nat} {st st' : SyncState}
    {q : AirkeyPerson}
    (hq : q.secondary_identification = "" ∨ q.id ≠ pid)
    (hP : dictGet st.person_id_to_scoutnet_id pid = none ∧
      ∀ kv ∈ st.persons_by_scoutnet_id, kv.2.id ≠ pid)
    (h : fetch_persons_step st q = .ok st') :
    dictGet st'.person_id_to_scoutnet_id pid = none ∧
    ∀ kv ∈ st'.persons_by_scoutnet_id, kv.2.id ≠ pid := by
  simp only [fetch_persons_step] at h
  split at h
  · injection h with h
    subst h
    exact hP
  · next hsec =>
    have hid : q.id ≠ pid := by
      rcases hq with hq | hq
      · exact absurd hq hsec
      · exact hq
    split at h
    · exact Except.noConfusion h
    · next sid hparse =>
      split at h
      · next scout hscout =>
        injection h with h
        subst h
        refine ⟨?_, ?_⟩
        · show dictGet (dictSet st.person_id_to_scoutnet_id q.id sid) pid = none
          rw [dictGet_dictSet_ne _ _ _ _ (fun hc => hid hc.symm)]
          exact hP.1
        · intro kv hkv
          rcases dictSet_mem hkv with hin | heq
          · exact hP.2 kv hin
          · rw [heq]
            exact hid
      · injection h with h
        subst h
        refine ⟨?_, ?_⟩
        · show dictGet (dictSet st.person_id_to_scoutnet_id q.id sid) pid = none
          rw [dictGet_dictSet_ne _ _ _ _ (fun hc => hid hc.symm)]
          exact hP.1
        · intro kv hkv
          rcases dictSet_mem hkv with hin | heq
          · exact hP.2 kv hin
          · rw [heq]
            exact hid

/-- C2 (amended): a remote person whose secondary-identification field is
absent is treated as foreign without failing — the fetch pass completes (as
long as every nonempty field is numeric) and the foreign person never enters
the scoutnet-keyed correlation indices (`persons_by_scoutnet_id`,
`person_id_to_scoutnet_id`) through which every create/update/delete/
deauthorize decision routes.  A non-numeric nonempty field, however, aborts
the fetch pass with `ValueError` (see the counterexample). -/
theorem C2_absent_foreign_skipped (users : List (Nat × ScoutnetMember))
    (d : Bool) (world : AirkeyWorld) (p₀ : AirkeyPerson)
    (hall : ∀ p ∈ world.persons, p.secondary_identification = "" ∨
      (parseInt p.secondary_identification).isSome = true)
    (hmem : p₀ ∈ world.persons)
    (hforeign : p₀.secondary_identification = "")
    (hnodup : (world.persons.map (fun p => p.id)).Nodup) :
    ∃ st', fetch_persons world (initState users d) = .ok st' ∧
      dictGet st'.person_id_to_scoutnet_id p₀.id = none ∧
      ∀ kv ∈ st'.persons_by_scoutnet_id, kv.2.id ≠ p₀.id := by
  obtain ⟨st', hok⟩ := fetch_persons_ok world (initState users d) hall
  refine ⟨st', hok, ?_⟩
  unfold fetch_persons at hok
  refine foldlM_inv
    (P := fun t => dictGet t.person_id_to_scoutnet_id p₀.id = none ∧
      ∀ kv ∈ t.persons_by_scoutnet_id, kv.2.id ≠ p₀.id)
    (paginate world.persons 0 []) _ st' ?_ ?_ hok
  · intro t q hq hP t' ht
    rw [paginate_zero] at hq
    refine fetch_persons_step_foreign ?_ hP ht
    by_cases hsec : q.secondary_identification = ""
    · exact Or.inl hsec
    · refine Or.inr ?_
      intro hid
      have : q = p₀ := List.inj_on_of_nodup_map hnodup hq hmem hid
      rw [this] at hsec
      exact hsec hforeign
  · exact ⟨rfl, fun kv hkv => absurd hkv (List.not_mem_nil kv)⟩

/-- Airkey snapshot for the C2 counterexample: one remote person with the
non-numeric secondary identification "abc". -/
def worldC2 : AirkeyWorld :=
  { persons := [{ id := 10, first_name := "Anna", last_name := "Ek"
                  secondary_identification := "abc" }]
    phones := [], auths := [], next_medium_id := 1000 }

/-- C2 counterexample: the claim says a person with a non-numeric
secondary-identification field is treated as foreign and the fetch pass
completes without raising.  On this snapshot the fetch pass aborts with
`ValueError` (the unguarded `int(p.secondary_identification)`). -/
theorem C2_non_numeric_raises :
    parseInt "abc" = none ∧
    fetch_persons worldC2 (initState [] false) = .error "ValueError" := by
  exact ⟨rfl, rfl⟩

/-- Airkey snapshot for the C2 witness: one foreign person (absent secondary
identification) next to one managed person. -/
def worldC2w : AirkeyWorld :=
  { persons := [{ id := 10, first_name := "Anna", last_name := "Ek"
                  secondary_identification := "" },
                { id := 11, first_name := "Bo", last_name := "Ek"
                  secondary_identification := "2" }]
    phones := [], auths := [], next_medium_id := 1000 }

/-- The foreign person of the C2 witness. -/
def personC2w : AirkeyPerson :=
  { id := 10, first_name := "Anna", last_name := "Ek"
    secondary_identification := "" }

/-- Witness for C2 at the concrete input. -/
theorem C2_absent_foreign_skipped_witness :
    (∀ p ∈ worldC2w.persons, p.secondary_identification = "" ∨
      (parseInt p.secondary_identification).isSome = true) ∧
    personC2w ∈ worldC2w.persons ∧
    personC2w.secondary_identification = "" ∧
    (worldC2w.persons.map (fun p => p.id)).Nodup ∧
    (∃ st', fetch_persons worldC2w (initState [] false) = .ok st' ∧
      dictGet st'.person_id_to_scoutnet_id personC2w.id = none ∧
      ∀ kv ∈ st'.persons_by_scoutnet_id, kv.2.id ≠ personC2w.id) :=
  ⟨by decide, by decide, rfl, by decide,
   C2_absent_foreign_skipped [] false worldC2w personC2w (by decide) (by decide) rfl (by decide)⟩

/-! ### C7: cache loading always re-fetches, and the auth index appends -/

/-- The indexing loop of `_fetch_auth` appends, per scoutnet id, exactly the
authorizations of the fetched batch that resolve to that id (non-DELETED,
owner found, nonempty numeric secondary identification). -/
theorem fetch_auth_fold_appends (k : Nat) :
    ∀ (auths : List Authorization) (st st' : SyncState),
      List.foldlM fetch_auth_step st auths = .ok st' →
      dGetL st'.auth_by_scoutnet_id k =
        dGetL st.auth_by_scoutnet_id k ++
          resolvedAuths st.persons_by_person_id auths k := by
  intro auths
  induction auths with
  | nil =>
    intro st st' h
    rw [foldlM_nil_e] at h
    injection h with h
    subst h
    simp [resolvedAuths]
  | cons a rest ih =>
    intro st st' h
    rw [foldlM_cons_e] at h
    cases hfa : fetch_auth_step st a with
    | error e =>
      rw [hfa, bind_error_e] at h
      exact Except.noConfusion h
    | ok st₁ =>
      rw [hfa, bind_ok_e] at h
      have hrest := ih st₁ st' h
      simp only [fetch_auth_step] at hfa
      split at hfa
      · next hdel =>
        injection hfa with hfa
        subst hfa
        rw [hrest]
        have hskip : resolvedAuths st.persons_by_person_id (a :: rest) k =
            resolvedAuths st.persons_by_person_id rest k := by
          unfold resolvedAuths
          rw [List.filter_cons, if_neg (by simp [hdel])]
        rw [hskip]
      · next hdel =>
        split at hfa
        · next hpget =>
          injection hfa with hfa
          subst hfa
          dsimp only at hrest hpget
          rw [hrest]
          have hskip : resolvedAuths st.persons_by_person_id (a :: rest) k =
              resolvedAuths st.persons_by_person_id rest k := by
            unfold resolvedAuths
            rw [List.filter_cons, if_neg (by simp [hpget])]
          rw [hskip]
        · next person hpget =>
          split at hfa
          · next hsec =>
            injection hfa with hfa
            subst hfa
            dsimp only at hrest hpget
            rw [hrest]
            have hskip : resolvedAuths st.persons_by_person_id (a :: rest) k =
                resolvedAuths st.persons_by_person_id rest k := by
              unfold resolvedAuths
              rw [List.filter_cons, if_neg (by simp [hpget, hsec])]
            rw [hskip]
          · next hsec =>
            split at hfa
            · exact Except.noConfusion hfa
            · next sid hparse =>
              injection hfa with hfa
              subst hfa
              dsimp only at hrest hpget
              by_cases hk : k = sid
              · subst hk
                rw [hrest, dGetL_dictAppend_self]
                have hkeep : resolvedAuths st.persons_by_person_id (a :: rest) k =
                    a :: resolvedAuths st.persons_by_person_id rest k := by
                  unfold resolvedAuths
                  rw [List.filter_cons, if_pos (by simp [hdel, hpget, hsec, hparse])]
                rw [hkeep]
                rw [List.append_assoc, List.singleton_append]
              · rw [hrest, dGetL_dictAppend_ne _ _ _ _ hk]
                have hskip : resolvedAuths st.persons_by_person_id (a :: rest) k =
                    resolvedAuths st.persons_by_person_id rest k := by
                  unfold resolvedAuths
                  rw [List.filter_cons, if_neg ?_]
                  simp [hpget, hparse]
                  intro h1 h2 hc
                  exact hk hc.symm
                rw [hskip]

/-- `_fetch_auth` appends the freshly resolved authorizations of the whole
remote snapshot to whatever the per-person authorization lists already held. -/
theorem fetch_auth_appends {world : AirkeyWorld} {st st' : SyncState} (k : Nat)
    (h : fetch_auth world st = .ok st') :
    dGetL st'.auth_by_scoutnet_id k =
      dGetL st.auth_by_scoutnet_id k ++
        resolvedAuths st'.persons_by_person_id world.auths k := by
  unfold fetch_auth at h
  cases hf : fetch_persons world st with
  | error e =>
    rw [hf, bind_error_e] at h
    exact Except.noConfusion h
  | ok st₁ =>
    rw [hf, bind_ok_e] at h
    unfold fetch_auth_loop at h
    have hfold := fetch_auth_fold_appends k (paginate world.auths 0 [])
      { st₁ with calls := st₁.calls ++ [ApiCall.getAuthorizations none] } st' h
    rw [paginate_zero] at hfold
    have hauth₁ : st₁.auth_by_scoutnet_id = st.auth_by_scoutnet_id :=
      (fetch_persons_frame hf).2.2.2.2.2.2
    have hpers : st'.persons_by_person_id = st₁.persons_by_person_id := by
      refine foldlM_inv
        (P := fun t => t.persons_by_person_id = st₁.persons_by_person_id)
        (paginate world.auths 0 []) _ st' ?_ rfl h
      intro t a _ hP t' ht
      exact ((fetch_auth_step_frame ht).2.2.2.1).trans hP
    dsimp only at hfold
    rw [hfold, hauth₁, hpers]

/-- C7 (amended): no load operation checks whether its cache is already
populated — every invocation re-fetches (the call trace grows by another
person fetch and authorization fetch) — and reloading the authorization cache
is not idempotent: the per-person authorization lists are appended to, so any
id that resolves at least one authorization in the second pass ends up with a
different (longer) list than after the first pass. -/
theorem C7_reload_refetches_and_duplicates (world : AirkeyWorld)
    (st st₁ st₂ : SyncState) (k : Nat)
    (h1 : fetch_auth world st = .ok st₁) (h2 : fetch_auth world st₁ = .ok st₂) :
    st₂.calls = st₁.calls ++ [ApiCall.getPersons, ApiCall.getAuthorizations none] ∧
    (resolvedAuths st₂.persons_by_person_id world.auths k ≠ [] →
      dGetL st₂.auth_by_scoutnet_id k ≠ dGetL st₁.auth_by_scoutnet_id k) := by
  obtain ⟨_, _, hcalls, _, _⟩ := fetch_auth_frame h2
  refine ⟨hcalls, ?_⟩
  intro hne heq
  have happ := fetch_auth_appends k h2
  rw [heq] at happ
  have hlen := congrArg List.length happ
  rw [List.length_append] at hlen
  have : (resolvedAuths st₂.persons_by_person_id world.auths k).length = 0 := by omega
  exact hne (List.eq_nil_of_length_eq_zero this)

/-- Member backing the C7 witness and counterexample. -/
def memberC7 : ScoutnetMember :=
  { first_name := "Anna", last_name := "Ek", contact_mobile_phone := "+46701234567"
    display_name := "Anna Ek", email := "anna@example.com" }

/-- Airkey snapshot for C7: one person with one active authorization. -/
def worldC7 : AirkeyWorld :=
  { persons := [{ id := 10, first_name := "Anna", last_name := "Ek"
                  secondary_identification := "1" }]
    phones := []
    auths := [{ id := 30, person_id := 10, area_name := "Clubhouse"
                current_state := "ACTIVE", deletion_requested := false }]
    next_medium_id := 1000 }

/-- Engine state for C7. -/
def stC7 : SyncState := initState [(1, memberC7)] false

/-- Cache state after loading authorizations once. -/
def stC7once : SyncState :=
  match fetch_auth worldC7 stC7 with
  | .ok st => st
  | .error _ => stC7

/-- Cache state after loading authorizations twice. -/
def stC7twice : SyncState :=
  match fetch_auth worldC7 stC7once with
  | .ok st => st
  | .error _ => stC7once

/-- C7 counterexample: on an unchanged remote snapshot, loading the
authorization cache a second time — with the cache already populated — issues
another full fetch and duplicates the person's authorization list
(`[auth 30] ++ [auth 30]` instead of `[auth 30]`), so the claim's "already
populated caches are not re-fetched" and "loading twice yields the same
authorization index" both fail. -/
theorem C7_counterexample :
    fetch_auth worldC7 stC7 = .ok stC7once ∧
    fetch_auth worldC7 stC7once = .ok stC7twice ∧
    stC7once.auth_by_scoutnet_id ≠ [] ∧
    (dGetL stC7once.auth_by_scoutnet_id 1).length = 1 ∧
    (dGetL stC7twice.auth_by_scoutnet_id 1).length = 2 ∧
    stC7twice.auth_by_scoutnet_id ≠ stC7once.auth_by_scoutnet_id ∧
    stC7twice.calls.length = stC7once.calls.length + 2 :=
  ⟨rfl, rfl, by decide, by decide, by decide, by decide, by decide⟩

/-- Witness for C7 (amended) at the concrete input. -/
theorem C7_reload_refetches_and_duplicates_witness :
    fetch_auth worldC7 stC7 = .ok stC7once ∧
    fetch_auth worldC7 stC7once = .ok stC7twice ∧
    resolvedAuths stC7twice.persons_by_person_id worldC7.auths 1 ≠ [] ∧
    (stC7twice.calls = stC7once.calls ++
      [ApiCall.getPersons, ApiCall.getAuthorizations none] ∧
     dGetL stC7twice.auth_by_scoutnet_id 1 ≠ dGetL stC7once.auth_by_scoutnet_id 1) := by
  have hmain := C7_reload_refetches_and_duplicates worldC7 stC7 stC7once stC7twice 1 rfl rfl
  exact ⟨rfl, rfl, by decide, hmain.1, hmain.2 (by decide)⟩

/-! ### C3: which authorizations are excluded from the existence check -/

/-- Per-person contribution of the create loop of `sync_auth`: all the
`(medium, area)` create requests collected for one entry of the correlated
person index. -/
def authCreateContrib (auth_idx : List (Nat × List Authorization))
    (phone_idx : List (Nat × Medium)) (area_ids : List Nat)
    (kv : Nat × AirkeyPerson) : List (Nat × Nat) :=
  if !dictHas auth_idx kv.1 then
    match dictGet phone_idx kv.1 with
    | none => []
    | some phone => area_ids.map (fun area_id => (phone.id, area_id))
  else []

/-- Closed form of the create-request fold of `sync_auth`. -/
theorem sync_auth_req_fold (auth_idx : List (Nat × List Authorization))
    (phone_idx : List (Nat × Medium)) (area_ids : List Nat) :
    ∀ (entries : List (Nat × AirkeyPerson)) (req₀ : List (Nat × Nat)),
      entries.foldl (fun req kv =>
        if !dictHas auth_idx kv.1 then
          match dictGet phone_idx kv.1 with
          | none => req
          | some phone => req ++ area_ids.map (fun area_id => (phone.id, area_id))
        else req) req₀ =
      req₀ ++ entries.flatMap (authCreateContrib auth_idx phone_idx area_ids) := by
  intro entries
  induction entries with
  | nil =>
    intro req₀
    simp
  | cons kv rest ih =>
    intro req₀
    rw [List.foldl_cons, List.flatMap_cons]
    by_cases hhas : dictHas auth_idx kv.1 = true
    · rw [if_neg (by simp [hhas])]
      rw [ih]
      unfold authCreateContrib
      rw [if_neg (by simp [hhas])]
      rfl
    · rw [if_pos (by simp [hhas])]
      cases hp : dictGet phone_idx kv.1 with
      | none =>
        rw [ih]
        unfold authCreateContrib
        rw [if_pos (by simp [hhas]), hp]
        rfl
      | some phone =>
        rw [ih]
        unfold authCreateContrib
        rw [if_pos (by simp [hhas]), hp, List.append_assoc]

/-- A key with `dictHas` yields a matching entry. -/
theorem dictHas_exists_entry {α β : Type} [BEq α] [LawfulBEq α]
    {d : List (α × β)} {k : α} (h : dictHas d k = true) :
    ∃ v, (k, v) ∈ d := by
  obtain ⟨kv, hmem, hp⟩ := List.any_eq_true.mp h
  have hk : kv.1 = k := eq_of_beq hp
  exact ⟨kv.2, by rw [← hk]; exact hmem⟩

/-- C3 (amended): `_fetch_auth` excludes exactly the authorizations whose
`current_state` is `DELETED` from the authorization index (first conjunct:
such a record leaves the cache state untouched), and `sync_auth`'s creation
check is keyed on presence in that index: a correlated person that is absent
from the index and owns a phone medium gets one authorization-creation call
per configured area in a live run.  (A person whose only authorizations are
deletion-requested but not yet `DELETED` is still present in the index, hence
not a creation candidate — see the counterexample.) -/
theorem C3_deleted_excluded_creation_on_presence (world : AirkeyWorld)
    (area_ids : List Nat) (st st' : SyncState) (sid : Nat) (phone : Medium)
    (h : sync_auth world area_ids true false false st = .ok st')
    (hdry : st'.dry_run = false)
    (hpers : dictHas st'.persons_by_scoutnet_id sid = true)
    (hnoauth : dictHas st'.auth_by_scoutnet_id sid = false)
    (hphone : dictGet st'.phones_by_scoutnet_id sid = some phone) :
    (∀ (t : SyncState) (a : Authorization), a.current_state = "DELETED" →
      fetch_auth_step t a = .ok t) ∧
    ∀ area ∈ area_ids, ApiCall.createAuthorization phone.id area ∈ st'.calls := by
  constructor
  · intro t a ha
    unfold fetch_auth_step
    rw [if_pos ha]
  · unfold sync_auth at h
    cases hf1 : fetch_persons world st with
    | error e => rw [hf1, bind_error_e] at h; exact Except.noConfusion h
    | ok s1 =>
      rw [hf1, bind_ok_e] at h
      cases hf2 : fetch_medium world s1 with
      | error e => rw [hf2, bind_error_e] at h; exact Except.noConfusion h
      | ok s2 =>
        rw [hf2, bind_ok_e] at h
        cases hf3 : fetch_auth world s2 with
        | error e => rw [hf3, bind_error_e] at h; exact Except.noConfusion h
        | ok s3 =>
          rw [hf3, bind_ok_e] at h
          dsimp only at h
          rw [if_pos rfl] at h
          rw [sync_auth_req_fold, List.nil_append] at h
          intro area harea
          split at h
          · next hcond =>
            injection h with h
            subst h
            dsimp only at hpers hnoauth hphone ⊢
            obtain ⟨v, hv⟩ := dictHas_exists_entry hpers
            refine List.mem_append_right _ (List.mem_map.mpr ⟨(phone.id, area), ?_, rfl⟩)
            refine List.mem_flatMap.mpr ⟨(sid, v), hv, ?_⟩
            unfold authCreateContrib
            rw [if_pos (by simp [hnoauth]), hphone]
            exact List.mem_map.mpr ⟨area, harea, rfl⟩
          · next hcond =>
            injection h with h
            subst h
            dsimp only at hpers hnoauth hphone hdry ⊢
            exfalso
            apply hcond
            refine ⟨?_, hdry⟩
            obtain ⟨v, hv⟩ := dictHas_exists_entry hpers
            apply List.ne_nil_of_mem (a := (phone.id, area))
            refine List.mem_flatMap.mpr ⟨(sid, v), hv, ?_⟩
            unfold authCreateContrib
            rw [if_pos (by simp [hnoauth]), hphone]
            exact List.mem_map.mpr ⟨area, harea, rfl⟩

/-- Member backing the C3 scenarios. -/
def memberC3 : ScoutnetMember :=
  { first_name := "Anna", last_name := "Ek", contact_mobile_phone := "+46701234567"
    display_name := "Anna Ek", email := "anna@example.com" }

/-- Airkey snapshot for the C3 counterexample: the person's only authorization
is deletion-requested (pending deletion) but its state is not `DELETED`. -/
def worldC3 : AirkeyWorld :=
  { persons := [{ id := 10, first_name := "Anna", last_name := "Ek"
                  secondary_identification := "1" }]
    phones := [{ id := 20, person_id := some 10, phone_number := "+46701234567"
                 medium_identifier := none, pairing_code_valid_until := none }]
    auths := [{ id := 30, person_id := 10, area_name := "Clubhouse"
                current_state := "DELETION_REQUESTED", deletion_requested := true }]
    next_medium_id := 1000 }

/-- Live-mode engine state for C3. -/
def stC3 : SyncState := initState [(1, memberC3)] false

/-- Result of `sync_auth` on the C3 counterexample input. -/
def outC3 : SyncState :=
  match sync_auth worldC3 [7] true false false stC3 with
  | .ok st => st
  | .error _ => stC3

/-- C3 counterexample: the claim says an authorization in deletion-requested
state is excluded from the authorization index, so a person all of whose
authorizations are deletion-requested is an authorization-creation candidate.
On this input the person's only authorization is deletion-requested (state
`DELETION_REQUESTED`, not `DELETED`), the person owns a phone medium, areas
are configured and the run is live — yet `sync_auth` issues no
authorization-creation call at all: only `DELETED` records are excluded. -/
theorem C3_counterexample :
    sync_auth worldC3 [7] true false false stC3 = .ok outC3 ∧
    (∀ a ∈ worldC3.auths, a.deletion_requested = true) ∧
    dictHas outC3.auth_by_scoutnet_id 1 = true ∧
    outC3.calls = [ApiCall.getPersons, ApiCall.getPersons, ApiCall.getPhones,
      ApiCall.getPersons, ApiCall.getAuthorizations none] :=
  ⟨rfl, by decide, by decide, by decide⟩

/-- Airkey snapshot for the C3 witness: identical, but the authorization has
reached the `DELETED` state. -/
def worldC3w : AirkeyWorld :=
  { persons := [{ id := 10, first_name := "Anna", last_name := "Ek"
                  secondary_identification := "1" }]
    phones := [{ id := 20, person_id := some 10, phone_number := "+46701234567"
                 medium_identifier := none, pairing_code_valid_until := none }]
    auths := [{ id := 30, person_id := 10, area_name := "Clubhouse"
                current_state := "DELETED", deletion_requested := true }]
    next_medium_id := 1000 }

/-- Result of `sync_auth` on the C3 witness input. -/
def outC3w : SyncState :=
  match sync_auth worldC3w [7] true false false (initState [(1, memberC3)] false) with
  | .ok st => st
  | .error _ => initState [(1, memberC3)] false

/-- The phone medium of the C3 witness person, as indexed by the fetch pass. -/
def phoneC3w : Medium :=
  { id := 20, person_id := some 10, phone_number := "+46701234567"
    medium_identifier := none, pairing_code_valid_until := none }

/-- Witness for C3 (amended): with the only authorization soft-deleted all the
way to `DELETED`, the person is treated as unauthorized and one creation call
is issued for the configured area. -/
theorem C3_deleted_excluded_creation_on_presence_witness :
    sync_auth worldC3w [7] true false false (initState [(1, memberC3)] false) = .ok outC3w ∧
    outC3w.dry_run = false ∧
    dictHas outC3w.persons_by_scoutnet_id 1 = true ∧
    dictHas outC3w.auth_by_scoutnet_id 1 = false ∧
    dictGet outC3w.phones_by_scoutnet_id 1 = some phoneC3w ∧
    ApiCall.createAuthorization phoneC3w.id 7 ∈ outC3w.calls := by
  have hph : dictGet outC3w.phones_by_scoutnet_id 1 = some phoneC3w := by decide
  refine ⟨rfl, by decide, by decide, by decide, hph, ?_⟩
  have hmain := (C3_deleted_excluded_creation_on_presence worldC3w [7]
    (initState [(1, memberC3)] false) outC3w 1 phoneC3w rfl (by decide) (by decide)
    (by decide) hph).2
  exact hmain 7 (by decide)

/-! ### C4: what the deauthorization branch collects and submits -/

theorem deleteAuthBatches_append (l₁ l₂ : List ApiCall) :
    deleteAuthBatches (l₁ ++ l₂) = deleteAuthBatches l₁ ++ deleteAuthBatches l₂ := by
  unfold deleteAuthBatches
  rw [List.filterMap_append]

theorem deleteAuthBatches_getPersons :
    deleteAuthBatches [ApiCall.getPersons] = [] := rfl

theorem deleteAuthBatches_getAuthorizations (x : Option Nat) :
    deleteAuthBatches [ApiCall.getAuthorizations x] = [] := rfl

theorem deleteAuthBatches_deleteAuthorization (r : List AuthDelete) :
    deleteAuthBatches [ApiCall.deleteAuthorization r] = [r] := rfl

/-- Every entry the deauthorization branch collects carries
`deletion_requested = true`. -/
theorem deauthContrib_requested (world : AirkeyWorld)
    (P : List (Nat × AirkeyPerson)) (i : Nat) :
    ∀ dreq ∈ deauthContrib world P i, dreq.deletion_requested = true := by
  intro dreq hd
  unfold deauthContrib at hd
  dsimp only at hd
  split at hd
  · obtain ⟨a, _, ha⟩ := List.mem_map.mp hd
    rw [← ha]
  · exact absurd hd (List.not_mem_nil dreq)

/-- When a removed person has at least one not-yet-requested authorization,
the deauthorization branch collects an entry for every authorization the
service returns for that person — including already-requested ones. -/
theorem deauthContrib_complete (world : AirkeyWorld)
    (P : List (Nat × AirkeyPerson)) (i : Nat)
    (hwit : ∃ a' ∈ world.auths,
      a'.person_id = (dictGetD P i defaultPerson).id ∧ a'.deletion_requested = false)
    (a : Authorization) (ha : a ∈ world.auths)
    (hpid : a.person_id = (dictGetD P i defaultPerson).id) :
    ({ id := a.id, deletion_requested := true } : AuthDelete) ∈ deauthContrib world P i := by
  obtain ⟨a', ha', hpid', hnr⟩ := hwit
  unfold deauthContrib
  dsimp only
  rw [if_pos ?_]
  · exact List.mem_map.mpr ⟨a, List.mem_filter.mpr ⟨ha, by simp [hpid]⟩, rfl⟩
  · apply List.ne_nil_of_mem (a := a'.area_name)
    exact List.mem_map.mpr ⟨a', List.mem_filter.mpr
      ⟨List.mem_filter.mpr ⟨ha', by simp [hpid']⟩, by simp [hnr]⟩, rfl⟩

/-- Closed form of the deauthorization fold of `sync_persons`: the collected
requests are the concatenated per-person contributions, the person index and
dry-run flag are untouched, and no deauthorization batch is submitted inside
the loop (only per-person `get_authorizations` reads are issued). -/
theorem deauth_fold_chars (world : AirkeyWorld) :
    ∀ (ids : List Nat) (s₀ : SyncState) (req₀ : List AuthDelete),
      (ids.foldl (deauth_step world) (s₀, req₀)).2 =
        req₀ ++ ids.flatMap (deauthContrib world s₀.persons_by_scoutnet_id) ∧
      (ids.foldl (deauth_step world) (s₀, req₀)).1.persons_by_scoutnet_id =
        s₀.persons_by_scoutnet_id ∧
      (ids.foldl (deauth_step world) (s₀, req₀)).1.dry_run = s₀.dry_run ∧
      deleteAuthBatches (ids.foldl (deauth_step world) (s₀, req₀)).1.calls =
        deleteAuthBatches s₀.calls := by
  intro ids
  induction ids with
  | nil =>
    intro s₀ req₀
    simp
  | cons i rest ih =>
    intro s₀ req₀
    rw [List.foldl_cons]
    have hstep : deauth_step world (s₀, req₀) i =
        ({ s₀ with calls := s₀.calls ++
            [ApiCall.getAuthorizations (some (dictGetD s₀.persons_by_scoutnet_id i defaultPerson).id)] },
         req₀ ++ deauthContrib world s₀.persons_by_scoutnet_id i) := by
      unfold deauth_step deauthContrib
      dsimp only
      split
      · rfl
      · rw [List.append_nil]
    rw [hstep]
    obtain ⟨ih1, ih2, ih3, ih4⟩ := ih _ _
    refine ⟨?_, ?_, ?_, ?_⟩
    · rw [ih1]
      dsimp only
      rw [List.flatMap_cons, List.append_assoc]
    · rw [ih2]
    · rw [ih3]
    · rw [ih4]
      dsimp only
      rw [deleteAuthBatches_append, deleteAuthBatches_getAuthorizations, List.append_nil]

/-- C4 (amended): on a live run, the deauthorization branch of `sync_persons`
collects, for every person present in the remote index but absent from the
roster that has at least one not-yet-deletion-requested authorization, an
`AuthorizationDelete` (with `deletion_requested = true`) for EVERY
authorization the service returns for that person — including ones already
deletion-requested — and submits everything collected as one single batch
call (none when nothing was collected). -/
theorem C4_deauthorize_marks_all_batched (world : AirkeyWorld)
    (st st' : SyncState)
    (h : sync_persons world false false false true st = .ok st')
    (hdry : st.dry_run = false) :
    ∃ (P : List (Nat × AirkeyPerson)) (req : List AuthDelete),
      req = (setDiff (dictKeys P) (dictKeys st.scoutnet_users)).flatMap
        (deauthContrib world P) ∧
      deleteAuthBatches st'.calls =
        deleteAuthBatches st.calls ++ (if req = [] then [] else [req]) ∧
      (∀ dreq ∈ req, dreq.deletion_requested = true) ∧
      (∀ i ∈ setDiff (dictKeys P) (dictKeys st.scoutnet_users),
        (∃ a' ∈ world.auths,
          a'.person_id = (dictGetD P i defaultPerson).id ∧
          a'.deletion_requested = false) →
        ∀ a ∈ world.auths, a.person_id = (dictGetD P i defaultPerson).id →
          ({ id := a.id, deletion_requested := true } : AuthDelete) ∈ req) := by
  unfold sync_persons at h
  cases hf1 : fetch_persons world st with
  | error e => rw [hf1, bind_error_e] at h; exact Except.noConfusion h
  | ok s1 =>
    rw [hf1, bind_ok_e] at h
    dsimp only at h
    rw [if_neg Bool.false_ne_true, if_neg Bool.false_ne_true, if_pos rfl,
        if_neg Bool.false_ne_true] at h
    obtain ⟨pf1, pf2, pf3, pf4, pf5, pf6, pf7⟩ := fetch_persons_frame hf1
    obtain ⟨ch1, ch2, ch3, ch4⟩ := deauth_fold_chars world
      (setDiff (dictKeys s1.persons_by_scoutnet_id) (dictKeys s1.scoutnet_users)) s1 []
    rw [List.nil_append] at ch1
    refine ⟨s1.persons_by_scoutnet_id,
      (setDiff (dictKeys s1.persons_by_scoutnet_id) (dictKeys s1.scoutnet_users)).flatMap
        (deauthContrib world s1.persons_by_scoutnet_id), by rw [pf2], ?_, ?_, ?_⟩
    · -- the batch equation
      split at h
      · next hcond =>
        obtain ⟨qf1, qf2, qf3, qf4, qf5, qf6, qf7⟩ := fetch_persons_frame h
        rw [qf3]
        dsimp only
        rw [deleteAuthBatches_append, deleteAuthBatches_getPersons, List.append_nil,
            deleteAuthBatches_append, deleteAuthBatches_deleteAuthorization, ch4,
            pf3, deleteAuthBatches_append, deleteAuthBatches_getPersons, List.append_nil]
        rw [if_neg (by rw [← ch1]; exact hcond.1), ch1]
      · next hcond =>
        obtain ⟨qf1, qf2, qf3, qf4, qf5, qf6, qf7⟩ := fetch_persons_frame h
        rw [qf3]
        rw [deleteAuthBatches_append, deleteAuthBatches_getPersons, List.append_nil,
            ch4, pf3, deleteAuthBatches_append, deleteAuthBatches_getPersons,
            List.append_nil]
        have hreq : (List.foldl (deauth_step world) (s1, [])
            (setDiff (dictKeys s1.persons_by_scoutnet_id) (dictKeys s1.scoutnet_users))).2 = [] := by
          by_contra hc
          exact hcond ⟨hc, by rw [ch3, pf1]; exact hdry⟩
        rw [hreq] at ch1
        rw [if_pos ch1.symm, List.append_nil]
    · -- all collected entries are deletion-requested
      intro dreq hd
      obtain ⟨i, hi, hdc⟩ := List.mem_flatMap.mp hd
      exact deauthContrib_requested world s1.persons_by_scoutnet_id i dreq hdc
    · -- completeness for persons with a not-yet-requested authorization
      intro i hi hwit a ha hpid
      rw [← pf2] at hi
      exact List.mem_flatMap.mpr
        ⟨i, hi, deauthContrib_complete world s1.persons_by_scoutnet_id i hwit a ha hpid⟩

/-- Airkey snapshot for the C4 scenarios: person 10 (scoutnet id 1, absent
from the roster) holds one active authorization and one already
deletion-requested authorization. -/
def worldC4 : AirkeyWorld :=
  { persons := [{ id := 10, first_name := "Anna", last_name := "Ek"
                  secondary_identification := "1" }]
    phones := []
    auths := [{ id := 100, person_id := 10, area_name := "AreaA"
                current_state := "ACTIVE", deletion_requested := false },
              { id := 200, person_id := 10, area_name := "AreaB"
                current_state := "ACTIVE", deletion_requested := true }]
    next_medium_id := 1000 }

/-- Live-mode engine state for C4: empty roster, so person 10 is removed. -/
def stC4 : SyncState := initState [] false

/-- Result of the deauthorize-only `sync_persons` run on the C4 input. -/
def outC4 : SyncState :=
  match sync_persons worldC4 false false false true stC4 with
  | .ok st => st
  | .error _ => stC4

/-- C4 counterexample: the claim says deauthorization marks exactly the
removed person's non-deleted (not already deletion-requested) authorizations.
Authorization 200 is already deletion-requested, yet the submitted batch
contains an `AuthorizationDelete` for it alongside the one for authorization
100: the source maps over `res.authorizations`, not over its non-requested
subset. -/
theorem C4_counterexample :
    sync_persons worldC4 false false false true stC4 = .ok outC4 ∧
    (∃ a ∈ worldC4.auths, a.id = 200 ∧ a.deletion_requested = true) ∧
    deleteAuthBatches outC4.calls =
      [[{ id := 100, deletion_requested := true },
        { id := 200, deletion_requested := true }]] :=
  ⟨rfl, by decide, by decide⟩

/-- Witness for C4 (amended) at the concrete input. -/
theorem C4_deauthorize_marks_all_batched_witness :
    stC4.dry_run = false ∧
    sync_persons worldC4 false false false true stC4 = .ok outC4 ∧
    (∃ (P : List (Nat × AirkeyPerson)) (req : List AuthDelete),
      req = (setDiff (dictKeys P) (dictKeys stC4.scoutnet_users)).flatMap
        (deauthContrib worldC4 P) ∧
      deleteAuthBatches outC4.calls =
        deleteAuthBatches stC4.calls ++ (if req = [] then [] else [req]) ∧
      (∀ dreq ∈ req, dreq.deletion_requested = true) ∧
      (∀ i ∈ setDiff (dictKeys P) (dictKeys stC4.scoutnet_users),
        (∃ a' ∈ worldC4.auths,
          a'.person_id = (dictGetD P i defaultPerson).id ∧
          a'.deletion_requested = false) →
        ∀ a ∈ worldC4.auths, a.person_id = (dictGetD P i defaultPerson).id →
          ({ id := a.id, deletion_requested := true } : AuthDelete) ∈ req)) :=
  ⟨rfl, rfl, C4_deauthorize_marks_all_batched worldC4 stC4 outC4 rfl rfl⟩

/-! ### C8: zero resolved key-holders is fatal -/

/-- The member-collection fold of `get_key_holders` ends empty exactly when it
started empty and no processed member id resolves in the full member map. -/
theorem key_holders_inner_nil (members : List (Nat × ScoutnetMember)) :
    ∀ (mems : List (Nat × ScoutnetMember)) (kh : List (Nat × ScoutnetMember)),
      (mems.foldl (fun kh kv =>
        if dictHas kh kv.1 then kh
        else match dictGet members kv.1 with
          | some m => kh ++ [(kv.1, m)]
          | none => kh) kh) = [] ↔
      (kh = [] ∧ ∀ kv ∈ mems, dictGet members kv.1 = none) := by
  intro mems
  induction mems with
  | nil =>
    intro kh
    simp
  | cons kv mems ih =>
    intro kh
    rw [List.foldl_cons]
    by_cases hhas : dictHas kh kv.1 = true
    · rw [if_pos hhas, ih]
      constructor
      · rintro ⟨hkh, hrest⟩
        subst hkh
        simp [dictHas] at hhas
      · rintro ⟨hkh, hrest⟩
        subst hkh
        simp [dictHas] at hhas
    · rw [if_neg hhas]
      cases hg : dictGet members kv.1 with
      | some m =>
        rw [ih]
        constructor
        · rintro ⟨hkh, _⟩
          exact absurd hkh (by simp)
        · rintro ⟨hkh, hall⟩
          have hx := hall kv (List.mem_cons_self _ _)
          rw [hg] at hx
          exact Option.noConfusion hx
      | none =>
        rw [ih]
        constructor
        · rintro ⟨hkh, hrest⟩
          refine ⟨hkh, fun kv' hkv' => ?_⟩
          rcases List.mem_cons.mp hkv' with hx | hx
          · rw [hx]
            exact hg
          · exact hrest kv' hx
        · rintro ⟨hkh, hall⟩
          exact ⟨hkh, fun kv' hkv' => hall kv' (List.mem_cons_of_mem _ hkv')⟩

/-- The double fold of `get_key_holders` ends empty exactly when no member of
any processed list resolves in the full member map. -/
theorem key_holders_outer_nil (members : List (Nat × ScoutnetMember)) :
    ∀ (ls : List ScoutnetList) (kh : List (Nat × ScoutnetMember)),
      (ls.foldl (fun kh l => l.members.foldl (fun kh kv =>
        if dictHas kh kv.1 then kh
        else match dictGet members kv.1 with
          | some m => kh ++ [(kv.1, m)]
          | none => kh) kh) kh) = [] ↔
      (kh = [] ∧ ∀ l ∈ ls, ∀ kv ∈ l.members, dictGet members kv.1 = none) := by
  intro ls
  induction ls with
  | nil =>
    intro kh
    simp
  | cons l ls ih =>
    intro kh
    rw [List.foldl_cons, ih, key_holders_inner_nil]
    constructor
    · rintro ⟨⟨hkh, hl⟩, hrest⟩
      refine ⟨hkh, fun l' hl' kv hkv => ?_⟩
      rcases List.mem_cons.mp hl' with hx | hx
      · subst hx
        exact hl kv hkv
      · exact hrest l' hx kv hkv
    · rintro ⟨hkh, hall⟩
      exact ⟨⟨hkh, fun kv hkv => hall l (List.mem_cons_self _ _) kv hkv⟩,
        fun l' hl' kv hkv => hall l' (List.mem_cons_of_mem _ hl') kv hkv⟩

/-- At least one key-holder resolves: some configured alias matches a list one
of whose members is present in the full member mapping. -/
def resolvedKeyHolderExists (client : ScoutnetWorld) (holders : List String) : Prop :=
  ∃ l ∈ client.lists, (∃ al ∈ l.aliases, al ∈ holders) ∧
    ∃ kv ∈ l.members, dictGet client.members kv.1 ≠ none

/-- C8: assuming list ids are unique (they key a mapping in the real service),
`get_key_holders` raises `RuntimeError` exactly when zero key-holders resolve
— no configured alias matches any list, or no member of a matched list exists
in the full member mapping — and returns a non-empty mapping whenever at
least one key-holder resolves. -/
theorem C8_zero_key_holders_fatal (client : ScoutnetWorld) (holders : List String)
    (hnodup : (client.lists.map (fun l => l.id)).Nodup) :
    (resolvedKeyHolderExists client holders →
      ∃ kh, get_key_holders client holders = .ok kh ∧ kh ≠ []) ∧
    (¬ resolvedKeyHolderExists client holders →
      get_key_holders client holders = .error "RuntimeError: No key holders!") := by
  have hfltmem : ∀ l : ScoutnetList,
      l ∈ client.lists.filter (fun l =>
        (((client.lists.filter (fun l => l.aliases.any (fun al => holders.contains al))).map
          (fun l => l.id)).contains l.id)) ↔
      (l ∈ client.lists ∧ l.aliases.any (fun al => holders.contains al) = true) := by
    intro l
    rw [List.mem_filter]
    constructor
    · rintro ⟨hl, hc⟩
      refine ⟨hl, ?_⟩
      have hid : l.id ∈ (client.lists.filter (fun l =>
          l.aliases.any (fun al => holders.contains al))).map (fun l => l.id) :=
        List.elem_iff.mp hc
      obtain ⟨l', hl', hlid⟩ := List.mem_map.mp hid
      obtain ⟨hl'mem, hl'al⟩ := List.mem_filter.mp hl'
      have : l' = l := List.inj_on_of_nodup_map hnodup hl'mem hl hlid
      rw [← this]
      exact hl'al
    · rintro ⟨hl, hal⟩
      refine ⟨hl, ?_⟩
      refine List.elem_iff.mpr ?_
      exact List.mem_map.mpr ⟨l, List.mem_filter.mpr ⟨hl, hal⟩, rfl⟩
  have hnil : ((client.lists.filter (fun l =>
      (((client.lists.filter (fun l => l.aliases.any (fun al => holders.contains al))).map
        (fun l => l.id)).contains l.id))).foldl (fun kh l => l.members.foldl (fun kh kv =>
          if dictHas kh kv.1 then kh
          else match dictGet client.members kv.1 with
            | some m => kh ++ [(kv.1, m)]
            | none => kh) kh) []) = [] ↔
      ¬ resolvedKeyHolderExists client holders := by
    rw [key_holders_outer_nil]
    constructor
    · rintro ⟨-, hall⟩ hres
      obtain ⟨l, hl, hals, kv, hkv, hget⟩ := hres
      refine hget (hall l ?_ kv hkv)
      refine (hfltmem l).mpr ⟨hl, ?_⟩
      obtain ⟨al, halmem, halh⟩ := hals
      exact List.any_eq_true.mpr ⟨al, halmem, List.elem_iff.mpr halh⟩
    · intro hnres
      refine ⟨rfl, fun l hl kv hkv => ?_⟩
      by_contra hget
      apply hnres
      obtain ⟨hlmem, hal⟩ := (hfltmem l).mp hl
      obtain ⟨al, halmem, halc⟩ := List.any_eq_true.mp hal
      exact ⟨l, hlmem, ⟨al, halmem, List.elem_iff.mp halc⟩, kv, hkv, hget⟩
  constructor
  · intro hres
    have hne : ((client.lists.filter (fun l =>
        (((client.lists.filter (fun l => l.aliases.any (fun al => holders.contains al))).map
          (fun l => l.id)).contains l.id))).foldl (fun kh l => l.members.foldl (fun kh kv =>
            if dictHas kh kv.1 then kh
            else match dictGet client.members kv.1 with
              | some m => kh ++ [(kv.1, m)]
              | none => kh) kh) []) ≠ [] := by
      intro hc
      exact (hnil.mp hc) hres
    refine ⟨_, ?_, hne⟩
    unfold get_key_holders
    dsimp only
    rw [if_neg (fun hlen => hne (List.length_eq_zero.mp hlen))]
  · intro hres
    have hzero := hnil.mpr hres
    unfold get_key_holders
    dsimp only
    rw [if_pos (by rw [hzero]; rfl)]

/-- Roster member used in the C8 witness. -/
def memberC8 : ScoutnetMember :=
  { first_name := "Anna", last_name := "Ek", contact_mobile_phone := "+46701234567"
    display_name := "Anna Ek", email := "anna@example.com" }

/-- Membership-service snapshot for the C8 witness: one list whose alias
matches and whose member exists in the full member mapping, one list whose
alias does not match. -/
def clientC8 : ScoutnetWorld :=
  { members := [(1, memberC8)]
    lists := [{ id := 5, aliases := ["keyholders"], members := [(1, memberC8)] },
              { id := 6, aliases := ["board"], members := [(2, memberC8)] }] }

/-- Witness for C8 at concrete inputs: a matching alias yields a non-empty
result, and holders that match nothing make `get_key_holders` raise. -/
theorem C8_zero_key_holders_fatal_witness :
    (clientC8.lists.map (fun l => l.id)).Nodup ∧
    get_key_holders clientC8 ["keyholders"] ≠
      .error "RuntimeError: No key holders!" ∧
    get_key_holders clientC8 ["nosuchalias"] =
      .error "RuntimeError: No key holders!" := by
  refine ⟨by decide, ?_, ?_⟩
  · obtain ⟨kh, hok, hne⟩ :=
      (C8_zero_key_holders_fatal clientC8 ["keyholders"] (by decide)).1
        (by unfold resolvedKeyHolderExists; decide)
    rw [hok]
    intro hc
    exact Except.noConfusion hc
  · exact (C8_zero_key_holders_fatal clientC8 ["nosuchalias"] (by decide)).2
      (by unfold resolvedKeyHolderExists; decide)
